import Mathlib

/-!
Verification of the go-ai repository's core chat engine against its
specification.

The Go source is shallowly embedded: Go strings (sequences of bytes/runes)
are modeled as `List Char`, pure Go functions become Lean functions, and the
agentic chat loops become fueled recursive functions over a scripted
transport (the network response for the k-th request is given by a function
`Nat → Except Str Response`, which soundly abstracts the HTTP layer).
Handler callbacks (`core.ServerTool.Handler`) are modeled as Lean functions
`Str → Except Str Str`; tool-call argument payloads are carried as opaque
strings (their JSON decoding is not modeled — a JSON-level decode failure
surfaces on the same error paths as a scripted transport error).

Sources embedded (paths relative to the repository root):
- `ollama/util.go` : appendStreamSegment, appendReasoningPart,
  joinReasoningParts, nonEmpty, defaultFinishReason, maxLoops,
  emitChunksFromResult, toCoreToolCalls, toTools.
- `openai/chat.go` + `openai/embed.go` : the Chat agentic loop, ChatStream
  (live SSE path and simulated replay path), maxLoops, toChatTools,
  newTextChatMessage and the rest of the message conversion.
- `ollama/chat.go` (src/unnamed/part_008) : the Chat agentic loop and the
  NDJSON ChatStream producer.
- `claude/chat.go` + `claude/convert.go` (src/claude/stream_reasoning_test.go
  second section) : the Chat agentic loop, the SSE ChatStream producer,
  toMessagesAndSystem / textMessage / contentMessage / normalizeRole.
-/

namespace GoAI

/-- Go strings are modeled as lists of characters. -/
abbrev Str := List Char

/-- Embeds a Lean string literal into the model's string type. -/
def str (s : String) : Str := s.data

/-- Model of Go `strings.TrimSpace`: drop whitespace from both ends. -/
def trimSpace (s : Str) : Str :=
  ((s.dropWhile Char.isWhitespace).reverse.dropWhile Char.isWhitespace).reverse

/-- Model of Go `strings.ToLower`. -/
def toLowerStr (s : Str) : Str := s.map Char.toLower

/-- `core.ToolCall` / the backend tool-call wire records: id, name and the
raw argument payload (argument JSON decoding is abstracted). -/
structure ToolCallV where
  id : Str := []
  name : Str := []
  args : Str := []
deriving DecidableEq, Repr

/-- `core.Usage`, with the sparse details map as an association list. -/
structure Usage where
  promptTokens : Int := 0
  completionTokens : Int := 0
  totalTokens : Int := 0
  reasoningTokens : Int := 0
  details : List (Str × Int) := []
deriving DecidableEq, Repr

/-- `core.Source`: URL or inline base64 data, each with a mime type. -/
inductive SourceV where
  | url (url mime : Str)
  | data (data mime : Str)
deriving DecidableEq, Repr

/-- `core.ContentPart`. The Go image metadata map is reduced to the one
field the engine reads from it (`metadata["detail"]`, pre-extracted). -/
inductive ContentPartV where
  | text (t : Str)
  | image (s : Option SourceV) (detail : Str)
  | audio (s : Option SourceV)
  | document (s : Option SourceV)
deriving DecidableEq, Repr

/-- `core.MessageUnion`: the four message variants of the conversation
model (TextMessagePart, ContentMessagePart, ToolCallMessagePart,
ToolResultMessagePart). -/
inductive CoreMessage where
  | text (role content : Str)
  | contentMsg (role : Str) (parts : List ContentPartV)
  | toolCall (role : Str) (calls : List ToolCallV)
  | toolResult (role toolCallId name content : Str)
deriving DecidableEq, Repr

/-- `core.ChatResult`. -/
structure ChatResult where
  text : Str := []
  reasoning : Str := []
  messages : List CoreMessage := []
  toolCalls : List ToolCallV := []
  finishReason : Str := []
  usage : Option Usage := none
deriving DecidableEq, Repr

/-- `core.StreamChunk` (all fields; unused fields keep their zero value,
as in Go). -/
structure StreamChunk where
  type : Str := []
  role : Str := []
  delta : Str := []
  content : Str := []
  reasoning : Str := []
  toolCall : Option ToolCallV := none
  toolCallId : Str := []
  finishReason : Str := []
  usage : Option Usage := none
  error : Str := []
deriving DecidableEq, Repr

/-- `core.ToolUnion`: a server tool carries a handler, a client tool does
not.  Description and parameter schema do not influence the engine's
behavior and are omitted. -/
inductive ToolUnion where
  | server (name : Str) (handler : Str → Except Str Str)
  | client (name : Str)

/-- `core.ChatParams` (the fields the embedded core reads). `hasOutput`
stands for `params.Output != nil`. -/
structure ChatParams where
  tools : List ToolUnion := []
  hasOutput : Bool := false
  messages : List CoreMessage := []
  maxAgenticLoops : Int := 0

/-- The tool registry each backend builds from `params.Tools`: the
`serverTools` name→tool map and the `clientTools` name set, modeled as
insertion-ordered lists (duplicate names are rejected at build time, so
list lookup coincides with Go map lookup). -/
structure ToolConfig where
  serverTools : List (Str × (Str → Except Str Str)) := []
  clientTools : List Str := []

/-- First-match lookup in the server-tool registry. -/
def lookupServer (m : List (Str × (Str → Except Str Str))) (k : Str) :
    Option (Str → Except Str Str) :=
  match m with
  | [] => none
  | (k', v) :: rest => if k' = k then some v else lookupServer rest k

/-- `appendStreamSegment` from `ollama/util.go`: the delta reconciler.
Given the previous cumulative snapshot and a newly observed fragment,
returns the updated snapshot and the incremental delta. -/
def appendStreamSegment (current incoming : Str) : Str × Str :=
  if incoming = [] then (current, [])
  else if current.isPrefixOf incoming then (incoming, incoming.drop current.length)
  else if incoming.isPrefixOf current then (current, [])
  else (current ++ incoming, incoming)

/-- `appendReasoningPart` from `ollama/util.go` (identical copies exist in
`openai/chat.go` and `claude/chat.go`): trim the incoming reasoning, drop
it if empty or equal to the last recorded part, else append. -/
def appendReasoningPart (parts : List Str) (reasoning : Str) : List Str :=
  let r := trimSpace reasoning
  if r = [] then parts
  else if parts ≠ [] ∧ parts.getLast? = some r then parts
  else parts ++ [r]

/-- `joinReasoningParts`: join recorded parts with newlines and trim. -/
def joinReasoningParts (parts : List Str) : Str :=
  if parts = [] then []
  else trimSpace (List.intercalate (str "\n") parts)

/-- `nonEmpty` from the backend helpers: the trimmed value, or the
fallback when the trimmed value is empty. -/
def nonEmpty (value fallback : Str) : Str :=
  let v := trimSpace value
  if v = [] then fallback else v

/-- `defaultFinishReason`. -/
def defaultFinishReason (result : ChatResult) : Str :=
  if result.toolCalls ≠ [] then str "tool_calls" else str "stop"

/-- `defaultMaxAgenticLoops` (declared in every backend's adapter.go). -/
def defaultMaxAgenticLoops : Int := 8

/-- `maxLoops(params, hasServerTools)` (identical in `openai/embed.go`,
`ollama/util.go` and the claude conversion file).  `params?` is `none`
when the Go `params` pointer is nil, otherwise `some params.MaxAgenticLoops`. -/
def maxLoops (params? : Option Int) (hasServerTools : Bool) : Int :=
  if !hasServerTools then 1
  else
    match params? with
    | some m => if m > 0 then m else defaultMaxAgenticLoops
    | none => defaultMaxAgenticLoops

/-- `cloneCoreMessages`: the loop's working conversation starts as a fresh
copy of `params.Messages` (Go allocates a new backing array). -/
def cloneCoreMessages (p : ChatParams) : List CoreMessage := p.messages

/-- The per-call body shared verbatim by the three backends' agentic
loops (`openai/chat.go` 93–120, `ollama/chat.go` 71–99, `claude/chat.go`
64–87): a server tool is executed (a handler error becomes a
`tool_error: <message>` result fed back as a normal tool-result turn), a
client tool is collected as pending, an unregistered name aborts with a
fatal error.  `errPfx` is the backend's error prefix (e.g.
`"openai: tool "`). -/
def processToolCalls (errPfx : Str) (cfg : ToolConfig) :
    List ToolCallV → List CoreMessage → List ToolCallV →
    Except Str (List CoreMessage × List ToolCallV)
  | [], conv, pending => .ok (conv, pending)
  | call :: rest, conv, pending =>
    match lookupServer cfg.serverTools call.name with
    | some handler =>
      let result :=
        match handler call.args with
        | .ok r => r
        | .error e => str "tool_error: " ++ e
      processToolCalls errPfx cfg rest
        (conv ++ [.toolResult (str "tool_result") call.id call.name result])
        pending
    | none =>
      if cfg.clientTools.contains call.name then
        processToolCalls errPfx cfg rest conv (pending ++ [call])
      else
        .error (errPfx ++ call.name ++ str " was requested but not registered")

namespace OpenAI

/-- One entry of `response.Choices` as `openai.Chat` consumes it.  `text`
stands for the result of `parseAssistantChoice` plus its raw JSON
fallback, `reasoning` for `parseAssistantChoiceReasoning` plus fallback;
both are backend data, so they are scripted fields here (a parse failure
aborts the call like a scripted transport error and is folded into it). -/
structure Choice where
  finishReason : Str := []
  text : Str := []
  reasoning : Str := []
  toolCalls : List ToolCallV := []

/-- `chatCompletionResponse` as consumed by the loop. -/
structure Response where
  choices : List Choice := []
  usage : Option Usage := none

/-- `toChatTools` from `openai/embed.go`: builds the server/client tool
registries, trimming names and rejecting duplicates before any network
call. -/
def toChatToolsGo : List ToolUnion → List Str → ToolConfig → Except Str ToolConfig
  | [], _, cfg => .ok cfg
  | .server name handler :: rest, seen, cfg =>
    let n := trimSpace name
    if n = [] then .error (str "openai: invalid server tool: tool name is required")
    else if seen.contains n then .error (str "openai: duplicate tool name " ++ n)
    else toChatToolsGo rest (seen ++ [n])
      { cfg with serverTools := cfg.serverTools ++ [(n, handler)] }
  | .client name :: rest, seen, cfg =>
    let n := trimSpace name
    if n = [] then .error (str "openai: invalid client tool: tool name is required")
    else if seen.contains n then .error (str "openai: duplicate tool name " ++ n)
    else toChatToolsGo rest (seen ++ [n])
      { cfg with clientTools := cfg.clientTools ++ [n] }

/-- Entry point of the tool registry construction. -/
def toChatTools (tools : List ToolUnion) : Except Str ToolConfig :=
  toChatToolsGo tools [] {}

/-- `openai.Chat`'s agentic loop (`openai/chat.go` 33–134), with the
transport scripted: the k-th `postChatCompletions` returns `script k`.
The pair's second component counts the transport calls performed.
OpenAI's `toCoreToolCalls` preserves id and name, so the assistant's
tool-call list is used directly as the core call list. -/
def chatLoop (cfg : ToolConfig) (script : Nat → Except Str Response) :
    Nat → Nat → List CoreMessage → List Str → Except Str ChatResult × Nat
  | 0, _, _, _ => (.error (str "openai: reached max tool loop count"), 0)
  | fuel + 1, k, conv, parts =>
    match script k with
    | .error e => (.error e, 1)
    | .ok resp =>
      match resp.choices with
      | [] => (.error (str "openai: empty response choices"), 1)
      | choice :: _ =>
        let parts' := appendReasoningPart parts choice.reasoning
        match choice.toolCalls with
        | [] =>
          (.ok { text := choice.text
                 reasoning := joinReasoningParts parts'
                 messages := conv ++ [.text (str "assistant") choice.text]
                 toolCalls := []
                 finishReason := nonEmpty choice.finishReason (str "stop")
                 usage := resp.usage }, 1)
        | calls =>
          let conv1 := conv ++ [.toolCall (str "tool_call") calls]
          match processToolCalls (str "openai: tool ") cfg calls conv1 [] with
          | .error e => (.error e, 1)
          | .ok (conv2, pending) =>
            match pending with
            | [] =>
              let next := chatLoop cfg script fuel (k + 1) conv2 parts'
              (next.1, next.2 + 1)
            | _ =>
              (.ok { text := []
                     reasoning := joinReasoningParts parts'
                     messages := conv2
                     toolCalls := pending
                     finishReason := str "tool_calls"
                     usage := resp.usage }, 1)

/-- `openai.Chat` wired up: tool registry construction, loop bound via
`maxLoops`, conversation seeded with a copy of `params.Messages`. -/
def chat (p : ChatParams) (script : Nat → Except Str Response) :
    Except Str ChatResult × Nat :=
  match toChatTools p.tools with
  | .error e => (.error e, 0)
  | .ok cfg =>
    chatLoop cfg script
      (maxLoops (some p.maxAgenticLoops) (!cfg.serverTools.isEmpty)).toNat
      0 (cloneCoreMessages p) []

end OpenAI

namespace Ollama

/-- The `message` field of an ollama `chatResponse`. -/
structure OMessage where
  content : Str := []
  thinking : Str := []
  toolCalls : List ToolCallV := []

/-- `chatResponse` as the loop and the stream reader consume it.  `usage`
stands for `toCoreChatUsage(response)` (nil when every counter is ≤ 0). -/
structure OResponse where
  message : OMessage := {}
  doneReason : Str := []
  done : Bool := false
  usage : Option Usage := none

/-- `toCoreToolCalls` from `ollama/util.go` 454–480: trims the name
(error when empty), defaults a blank id to `call_<1-based index>`.
Argument JSON normalization is abstracted to the raw payload. -/
def toCoreToolCallsFrom : Nat → List ToolCallV → Except Str (List ToolCallV)
  | _, [] => .ok []
  | i, c :: rest =>
    let name := trimSpace c.name
    if name = [] then
      .error (str ("ollama: tool call at index " ++ toString i ++ " is missing a function name"))
    else
      let id := if trimSpace c.id = [] then str ("call_" ++ toString (i + 1)) else trimSpace c.id
      match toCoreToolCallsFrom (i + 1) rest with
      | .error e => .error e
      | .ok out => .ok ({ id := id, name := name, args := c.args } :: out)

/-- Entry point of ollama's tool-call conversion. -/
def toCoreToolCalls (calls : List ToolCallV) : Except Str (List ToolCallV) :=
  toCoreToolCallsFrom 0 calls

/-- `toTools` from `ollama/util.go` 530–598 (same registry construction
as openai's, with ollama's error prefix). -/
def toToolsGo : List ToolUnion → List Str → ToolConfig → Except Str ToolConfig
  | [], _, cfg => .ok cfg
  | .server name handler :: rest, seen, cfg =>
    let n := trimSpace name
    if n = [] then .error (str "ollama: invalid server tool: tool name is required")
    else if seen.contains n then .error (str "ollama: duplicate tool name " ++ n)
    else toToolsGo rest (seen ++ [n])
      { cfg with serverTools := cfg.serverTools ++ [(n, handler)] }
  | .client name :: rest, seen, cfg =>
    let n := trimSpace name
    if n = [] then .error (str "ollama: invalid client tool: tool name is required")
    else if seen.contains n then .error (str "ollama: duplicate tool name " ++ n)
    else toToolsGo rest (seen ++ [n])
      { cfg with clientTools := cfg.clientTools ++ [n] }

/-- Entry point of ollama's tool registry construction. -/
def toTools (tools : List ToolUnion) : Except Str ToolConfig :=
  toToolsGo tools [] {}

/-- `ollama.Chat`'s agentic loop (`ollama/chat.go` 31–113).  Differences
from openai's loop: the response carries one message (no choices list),
a non-blank assistant text accompanying tool calls is recorded as its own
conversation turn, and tool-call names/ids are normalized by
`toCoreToolCalls` before dispatch. -/
def chatLoop (cfg : ToolConfig) (script : Nat → Except Str OResponse) :
    Nat → Nat → List CoreMessage → List Str → Except Str ChatResult × Nat
  | 0, _, _, _ => (.error (str "ollama: reached max tool loop count"), 0)
  | fuel + 1, k, conv, parts =>
    match script k with
    | .error e => (.error e, 1)
    | .ok resp =>
      let parts' := appendReasoningPart parts resp.message.thinking
      let assistantText := resp.message.content
      match resp.message.toolCalls with
      | [] =>
        (.ok { text := assistantText
               reasoning := joinReasoningParts parts'
               messages := conv ++ [.text (str "assistant") assistantText]
               toolCalls := []
               finishReason := nonEmpty resp.doneReason (str "stop")
               usage := resp.usage }, 1)
      | rawCalls =>
        match toCoreToolCalls rawCalls with
        | .error e => (.error e, 1)
        | .ok coreCalls =>
          let conv0 :=
            if trimSpace assistantText ≠ [] then
              conv ++ [.text (str "assistant") assistantText]
            else conv
          let conv1 := conv0 ++ [.toolCall (str "tool_call") coreCalls]
          match processToolCalls (str "ollama: tool ") cfg coreCalls conv1 [] with
          | .error e => (.error e, 1)
          | .ok (conv2, pending) =>
            match pending with
            | [] =>
              let next := chatLoop cfg script fuel (k + 1) conv2 parts'
              (next.1, next.2 + 1)
            | _ =>
              (.ok { text := []
                     reasoning := joinReasoningParts parts'
                     messages := conv2
                     toolCalls := pending
                     finishReason := str "tool_calls"
                     usage := resp.usage }, 1)

/-- `ollama.Chat` wired up. -/
def chat (p : ChatParams) (script : Nat → Except Str OResponse) :
    Except Str ChatResult × Nat :=
  match toTools p.tools with
  | .error e => (.error e, 0)
  | .ok cfg =>
    chatLoop cfg script
      (maxLoops (some p.maxAgenticLoops) (!cfg.serverTools.isEmpty)).toNat
      0 (cloneCoreMessages p) []

end Ollama

namespace Claude

/-- A claude `mediaSource`. -/
structure MediaSource where
  type : Str := []
  mediaType : Str := []
  data : Str := []
  url : Str := []
deriving DecidableEq, Repr

/-- A claude `contentBlock` (the fields the engine reads or writes;
`signature` is never touched). -/
structure CBlock where
  type : Str := []
  text : Str := []
  thinking : Str := []
  id : Str := []
  name : Str := []
  input : Str := []
  toolUseId : Str := []
  content : Str := []
  source : Option MediaSource := none
deriving DecidableEq, Repr

/-- `messageResponse` as the loop consumes it. -/
structure CResponse where
  content : List CBlock := []
  stopReason : Str := []
  usage : Option Usage := none

/-- `extractText`: concatenation of the text of `"text"` blocks. -/
def extractText (content : List CBlock) : Str :=
  match content with
  | [] => []
  | b :: rest =>
    (if b.type = str "text" then b.text else []) ++ extractText rest

/-- Collects the parts for `extractReasoning`. -/
def extractReasoningParts : List CBlock → List Str
  | [] => []
  | b :: rest =>
    if b.type = str "thinking" ∨ b.type = str "reasoning" then
      if trimSpace b.thinking ≠ [] then trimSpace b.thinking :: extractReasoningParts rest
      else if trimSpace b.text ≠ [] then trimSpace b.text :: extractReasoningParts rest
      else extractReasoningParts rest
    else extractReasoningParts rest

/-- `extractReasoning`: thinking/reasoning blocks joined with newlines. -/
def extractReasoning (content : List CBlock) : Str :=
  let parts := extractReasoningParts content
  if parts = [] then [] else trimSpace (List.intercalate (str "\n") parts)

/-- `extractToolUses`: the `"tool_use"` blocks, in order. -/
def extractToolUses (content : List CBlock) : List CBlock :=
  content.filter (fun b => b.type = str "tool_use")

/-- `toCoreToolCalls` (claude variant): map tool_use blocks to core calls,
ids and names preserved. -/
def toCoreToolCalls (blocks : List CBlock) : List ToolCallV :=
  (extractToolUses blocks).map (fun b => { id := b.id, name := b.name, args := b.input })

/-- `toTools` (claude variant, same construction with claude's prefix). -/
def toToolsGo : List ToolUnion → List Str → ToolConfig → Except Str ToolConfig
  | [], _, cfg => .ok cfg
  | .server name handler :: rest, seen, cfg =>
    let n := trimSpace name
    if n = [] then .error (str "claude: invalid server tool: tool name is required")
    else if seen.contains n then .error (str "claude: duplicate tool name " ++ n)
    else toToolsGo rest (seen ++ [n])
      { cfg with serverTools := cfg.serverTools ++ [(n, handler)] }
  | .client name :: rest, seen, cfg =>
    let n := trimSpace name
    if n = [] then .error (str "claude: invalid client tool: tool name is required")
    else if seen.contains n then .error (str "claude: duplicate tool name " ++ n)
    else toToolsGo rest (seen ++ [n])
      { cfg with clientTools := cfg.clientTools ++ [n] }

/-- Entry point of claude's tool registry construction. -/
def toTools (tools : List ToolUnion) : Except Str ToolConfig :=
  toToolsGo tools [] {}

/-- `claude.Chat`'s agentic loop (`claude/chat.go` 31–105).  The per-call
dispatch iterates the tool_use blocks; since claude's `toCoreToolCalls`
preserves id/name/input, this is the shared per-call body applied to the
core call list. -/
def chatLoop (cfg : ToolConfig) (script : Nat → Except Str CResponse) :
    Nat → Nat → List CoreMessage → List Str → Except Str ChatResult × Nat
  | 0, _, _, _ => (.error (str "claude: reached max tool loop count"), 0)
  | fuel + 1, k, conv, parts =>
    match script k with
    | .error e => (.error e, 1)
    | .ok resp =>
      let parts' := appendReasoningPart parts (extractReasoning resp.content)
      match toCoreToolCalls resp.content with
      | [] =>
        let text := extractText resp.content
        (.ok { text := text
               reasoning := joinReasoningParts parts'
               messages := conv ++ [.text (str "assistant") text]
               toolCalls := []
               finishReason := nonEmpty resp.stopReason (str "stop")
               usage := resp.usage }, 1)
      | coreCalls =>
        let conv1 := conv ++ [.toolCall (str "tool_call") coreCalls]
        match processToolCalls (str "claude: tool ") cfg coreCalls conv1 [] with
        | .error e => (.error e, 1)
        | .ok (conv2, pending) =>
          match pending with
          | [] =>
            let next := chatLoop cfg script fuel (k + 1) conv2 parts'
            (next.1, next.2 + 1)
          | _ =>
            (.ok { text := []
                   reasoning := joinReasoningParts parts'
                   messages := conv2
                   toolCalls := pending
                   finishReason := str "tool_calls"
                   usage := resp.usage }, 1)

/-- `claude.Chat` wired up. -/
def chat (p : ChatParams) (script : Nat → Except Str CResponse) :
    Except Str ChatResult × Nat :=
  match toTools p.tools with
  | .error e => (.error e, 0)
  | .ok cfg =>
    chatLoop cfg script
      (maxLoops (some p.maxAgenticLoops) (!cfg.serverTools.isEmpty)).toNat
      0 (cloneCoreMessages p) []

end Claude

/-- The per-message case of `emitChunksFromResult` (identical in
`ollama/util.go` 147–202, `openai/chat.go` and `claude/chat.go`):
assistant text turns replay as content chunks carrying the whole turn
text as both delta and cumulative content, tool-call turns replay one
chunk per call, tool-result turns replay one chunk; other messages are
skipped. -/
def chunksOfMessage : CoreMessage → List StreamChunk
  | .text role content =>
    if role = str "assistant" then
      [{ type := str "content", role := str "assistant", delta := content, content := content }]
    else []
  | .contentMsg _ _ => []
  | .toolCall _ calls =>
    calls.map (fun c => { type := str "tool_call", toolCall := some c })
  | .toolResult _ toolCallId _ content =>
    [{ type := str "tool_result", toolCallId := toolCallId, content := content }]

/-- `emitChunksFromResult(out, params, result)`: the replay emitter used
by every backend's simulated streaming path.  `paramsLen` is
`len(params.Messages)` (0 for a nil params). -/
def emitChunksFromResult (paramsLen : Nat) (r : ChatResult) : List StreamChunk :=
  (if trimSpace r.reasoning ≠ [] then
    [{ type := str "reasoning", role := str "assistant",
       delta := trimSpace r.reasoning, reasoning := trimSpace r.reasoning }]
   else []) ++
  (let start := if paramsLen ≤ r.messages.length then paramsLen else 0
   ((r.messages.drop start).map chunksOfMessage).flatten)

namespace Ollama

/-- One scanned NDJSON line of the ollama stream: either a line whose
JSON decoding fails, or a decoded `chatResponse` event (blank lines are
skipped by the scanner and not represented). -/
inductive OLine where
  | bad
  | event (e : OResponse)

/-- The ollama `ChatStream` live read loop (`ollama/chat.go` 187–253):
content and reasoning are pushed through `appendStreamSegment`, a chunk is
emitted only for a non-empty delta, a `done` event emits the terminal
`Done` chunk, a decode failure emits a terminal `Error` chunk, and the end
of input emits `Error` on a scanner error, else `Done`. -/
def liveLoop (scanErr : Bool) :
    List OLine → Str → Str → Option Usage → List StreamChunk
  | [], _, reasoning, usage =>
    if scanErr then [{ type := str "error", error := str "ollama: stream read failed" }]
    else
      [{ type := str "done", finishReason := str "stop",
         reasoning := trimSpace reasoning, usage := usage }]
  | .bad :: _, _, _, _ =>
    [{ type := str "error", error := str "ollama: decode stream event" }]
  | .event e :: rest, content, reasoning, _ =>
    let usage' := e.usage
    let rStep := appendStreamSegment reasoning (trimSpace e.message.thinking)
    let rChunks :=
      if rStep.2 ≠ [] then
        [{ type := str "reasoning", role := str "assistant",
           delta := rStep.2, reasoning := trimSpace rStep.1 }]
      else []
    let cStep := appendStreamSegment content e.message.content
    let cChunks :=
      if cStep.2 ≠ [] then
        [{ type := str "content", role := str "assistant",
           delta := cStep.2, content := cStep.1 }]
      else []
    if e.done then
      rChunks ++ cChunks ++
        [{ type := str "done", finishReason := nonEmpty e.doneReason (str "stop"),
           reasoning := trimSpace rStep.1, usage := usage' }]
    else
      rChunks ++ cChunks ++ liveLoop scanErr rest cStep.1 rStep.1 usage'

/-- Script for one `ChatStream` invocation: the synchronous-chat script
(used by the replay path), a pre-loop failure (marshal/build/transport
error or HTTP ≥ 400, abstracted to its error text), the scanned lines and
the scanner's final error flag.  Message conversion failures (which make
`ChatStream` return an error instead of a channel) are represented by
`buildFail`. -/
structure StreamScript where
  chat : Nat → Except Str OResponse := fun _ => .error []
  buildFail : Option Str := none
  preFail : Option Str := none
  lines : List OLine := []
  scanErr : Bool := false

/-- `ollama.ChatStream` (`ollama/chat.go` 120–257): validation/build
failures return an error and no channel; with any tool or an output
schema configured the stream replays a synchronous `Chat` result
(`Error` chunk on failure, else `emitChunksFromResult` plus a `Done`
chunk); otherwise the live NDJSON loop runs. -/
def chatStream (p : ChatParams) (s : StreamScript) : Except Str (List StreamChunk) :=
  match s.buildFail with
  | some e => .error e
  | none =>
    match toTools p.tools with
    | .error e => .error e
    | .ok cfg =>
      .ok (if !cfg.serverTools.isEmpty ∨ !cfg.clientTools.isEmpty ∨ p.hasOutput then
        match (chat p s.chat).1 with
        | .error e => [{ type := str "error", error := e }]
        | .ok r =>
          emitChunksFromResult p.messages.length r ++
            [{ type := str "done",
               finishReason := nonEmpty r.finishReason (defaultFinishReason r),
               reasoning := r.reasoning, usage := r.usage }]
      else
        match s.preFail with
        | some e => [{ type := str "error", error := e }]
        | none => liveLoop s.scanErr s.lines [] [] none)

end Ollama

namespace Claude

/-- A decoded `streamDelta`. -/
structure CDelta where
  type : Str := []
  text : Str := []
  thinking : Str := []
deriving DecidableEq, Repr

/-- A decoded claude `streamEvent` (the fields the loop reads). -/
structure CEvent where
  type : Str := []
  delta : Option CDelta := none
  hasError : Bool := false
  errMsg : Str := []
  usage : Option Usage := none

/-- One scanned SSE line: skipped (non-data line, blank payload or
`[DONE]`), JSON-undecodable, or a decoded event. -/
inductive CLine where
  | skip
  | bad
  | event (e : CEvent)

/-- The `content_block_delta` handling of the claude live loop
(`claude/chat.go` 211–233): a non-empty text delta appends to the
content snapshot and emits a content chunk; a thinking delta goes through
`appendReasoningPart` and emits a reasoning chunk only when the part list
grew.  Returns the emitted chunks and the updated content/parts state. -/
def deltaStep (e : CEvent) (content : Str) (parts : List Str) :
    List StreamChunk × Str × List Str :=
  if e.type = str "content_block_delta" then
    match e.delta with
    | some d =>
      if d.type = str "text_delta" ∧ d.text ≠ [] then
        ([{ type := str "content", role := str "assistant",
            delta := d.text, content := content ++ d.text }],
         content ++ d.text, parts)
      else if d.type = str "thinking_delta" then
        let rd := trimSpace (nonEmpty d.thinking d.text)
        let parts' := appendReasoningPart parts rd
        (if parts.length < parts'.length then
          [{ type := str "reasoning", role := str "assistant",
             delta := rd, reasoning := joinReasoningParts parts' }]
         else [], content, parts')
      else ([], content, parts)
    | none => ([], content, parts)
  else ([], content, parts)

/-- The claude `ChatStream` live read loop (`claude/chat.go` 185–246):
an `error` event or a decode failure emits a terminal `Error` chunk,
`message_stop` emits the terminal `Done` chunk, and the end of input
emits `Error` on a scanner error, else `Done`. -/
def liveLoop (scanErr : Bool) :
    List CLine → Str → List Str → Option Usage → List StreamChunk
  | [], _, parts, usage =>
    if scanErr then [{ type := str "error", error := str "claude: stream read failed" }]
    else
      [{ type := str "done", finishReason := str "stop",
         reasoning := joinReasoningParts parts, usage := usage }]
  | .skip :: rest, content, parts, usage => liveLoop scanErr rest content parts usage
  | .bad :: _, _, _, _ =>
    [{ type := str "error", error := str "claude: decode stream event" }]
  | .event e :: rest, content, parts, usage =>
    let usage' := match e.usage with | some u => some u | none => usage
    if e.type = str "error" ∧ e.hasError then
      [{ type := str "error", error := str "claude: stream error: " ++ e.errMsg }]
    else
      let step := deltaStep e content parts
      if e.type = str "message_stop" then
        step.1 ++
          [{ type := str "done", finishReason := str "stop",
             reasoning := joinReasoningParts step.2.2, usage := usage' }]
      else
        step.1 ++ liveLoop scanErr rest step.2.1 step.2.2 usage'

/-- Script for one claude `ChatStream` invocation (see the ollama
`StreamScript` for the field meanings). -/
structure StreamScript where
  chat : Nat → Except Str CResponse := fun _ => .error []
  buildFail : Option Str := none
  preFail : Option Str := none
  lines : List CLine := []
  scanErr : Bool := false

/-- `claude.ChatStream` (`claude/chat.go` 112–250). -/
def chatStream (p : ChatParams) (s : StreamScript) : Except Str (List StreamChunk) :=
  match s.buildFail with
  | some e => .error e
  | none =>
    match toTools p.tools with
    | .error e => .error e
    | .ok cfg =>
      .ok (if !cfg.serverTools.isEmpty ∨ !cfg.clientTools.isEmpty ∨ p.hasOutput then
        match (chat p s.chat).1 with
        | .error e => [{ type := str "error", error := e }]
        | .ok r =>
          emitChunksFromResult p.messages.length r ++
            [{ type := str "done",
               finishReason := nonEmpty r.finishReason (defaultFinishReason r),
               reasoning := r.reasoning, usage := r.usage }]
      else
        match s.preFail with
        | some e => [{ type := str "error", error := e }]
        | none => liveLoop s.scanErr s.lines [] [] none)

end Claude

namespace OpenAI

/-- One entry of a decoded openai stream event's `choices`: the decoded
finish reason, reasoning fragment (`parseStreamChoiceReasoning` plus raw
fallback) and text delta (`parseStreamChoiceText` plus raw fallback).
Per-choice parse failures, which terminate the stream with an `Error`
chunk exactly like a line-level decode failure, are abstracted into
line-level `bad` entries. -/
structure SChoice where
  finishReason : Str := []
  reasoning : Str := []
  text : Str := []

/-- A decoded openai `streamEvent`. -/
structure SEvent where
  usage : Option Usage := none
  choices : List SChoice := []

/-- One scanned SSE line of the openai stream: skipped (comment/non-data),
the `[DONE]` sentinel, undecodable, or a decoded event. -/
inductive OAILine where
  | skip
  | doneMarker
  | bad
  | event (e : SEvent)

/-- The inner `for _, choice := range event.Choices` body of the openai
live loop (`openai/chat.go` 244–294): updates the finish reason, pushes
reasoning fragments through `appendReasoningPart` (emitting a reasoning
chunk whose delta is the trimmed fragment and whose cumulative field is
the newline-joined parts), and appends a non-empty text delta to the
content snapshot, emitting a content chunk. -/
def processChoices :
    List SChoice → Str → List Str → Str →
    List StreamChunk × Str × List Str × Str
  | [], content, parts, finishReason => ([], content, parts, finishReason)
  | ch :: rest, content, parts, finishReason =>
    let fr' := if ch.finishReason ≠ [] then ch.finishReason else finishReason
    let parts' := appendReasoningPart parts ch.reasoning
    let rChunks :=
      if parts.length < parts'.length then
        [{ type := str "reasoning", role := str "assistant",
           delta := trimSpace ch.reasoning, reasoning := joinReasoningParts parts' }]
      else []
    if ch.text = [] then
      let next := processChoices rest content parts' fr'
      (rChunks ++ next.1, next.2)
    else
      let content' := content ++ ch.text
      let next := processChoices rest content' parts' fr'
      (rChunks ++
        [{ type := str "content", role := str "assistant",
           delta := ch.text, content := content' }] ++ next.1, next.2)

/-- The openai `ChatStream` live read loop (`openai/chat.go` 212–307). -/
def liveLoop (scanErr : Bool) :
    List OAILine → Str → List Str → Str → Option Usage → List StreamChunk
  | [], _, parts, finishReason, usage =>
    if scanErr then [{ type := str "error", error := str "openai: stream read failed" }]
    else
      [{ type := str "done", finishReason := nonEmpty finishReason (str "stop"),
         reasoning := joinReasoningParts parts, usage := usage }]
  | .skip :: rest, content, parts, finishReason, usage =>
    liveLoop scanErr rest content parts finishReason usage
  | .doneMarker :: _, _, parts, finishReason, usage =>
    [{ type := str "done", finishReason := nonEmpty finishReason (str "stop"),
       reasoning := joinReasoningParts parts, usage := usage }]
  | .bad :: _, _, _, _, _ =>
    [{ type := str "error", error := str "openai: decode stream event" }]
  | .event e :: rest, content, parts, finishReason, usage =>
    let usage' := match e.usage with | some u => some u | none => usage
    let step := processChoices e.choices content parts finishReason
    step.1 ++ liveLoop scanErr rest step.2.1 step.2.2.1 step.2.2.2 usage'

end OpenAI

namespace Claude

/-- An outgoing claude `message`: role plus content blocks. -/
structure CMessage where
  role : Str
  content : List CBlock
deriving DecidableEq, Repr

/-- `normalizeRole` (claude variant): lower-cased trimmed role, one of
user/assistant/system. -/
def normalizeRole (role : Str) : Except Str Str :=
  let normalized := toLowerStr (trimSpace role)
  if normalized = [] then .error (str "message role is required")
  else if normalized = str "user" ∨ normalized = str "assistant" ∨ normalized = str "system" then
    .ok normalized
  else .error (str "unsupported role " ++ role)

/-- `textMessage` (claude): a system-role text message produces no
conversation turn and yields its content as system text; any other role
becomes a single-text-block turn. -/
def textMessage (role content : Str) : Except Str (Option CMessage × Str) :=
  match normalizeRole role with
  | .error e => .error e
  | .ok n =>
    if n = str "system" then .ok (none, content)
    else .ok (some { role := n, content := [{ type := str "text", text := content }] }, [])

/-- `mediaSourceFromSource` with `urlMediaSource` / `dataMediaSource`
inlined. -/
def mediaSourceFromSource : SourceV → Except Str MediaSource
  | .url u _ =>
    if trimSpace u = [] then .error (str "source URL is required")
    else .ok { type := str "url", url := trimSpace u }
  | .data d m =>
    if trimSpace d = [] then .error (str "source data is required")
    else if trimSpace m = [] then .error (str "source mime type is required")
    else .ok { type := str "base64", mediaType := trimSpace m, data := trimSpace d }

/-- `imageBlock` / `audioBlock` / `documentBlock` (identical up to the
block type and the nil-source error message). -/
def mediaBlock (kind : Str) (s : Option SourceV) : Except Str CBlock :=
  match s with
  | none => .error (kind ++ str " source is required")
  | some src =>
    match mediaSourceFromSource src with
    | .error e => .error e
    | .ok ms => .ok { type := kind, source := some ms }

/-- `toContentBlock`. -/
def toContentBlock : ContentPartV → Except Str CBlock
  | .text t => .ok { type := str "text", text := t }
  | .image s _ => mediaBlock (str "image") s
  | .audio s => mediaBlock (str "audio") s
  | .document s => mediaBlock (str "document") s

/-- Elementwise part conversion for `toContentBlocks`. -/
def toContentBlocksGo : List ContentPartV → Except Str (List CBlock)
  | [] => .ok []
  | p :: rest =>
    match toContentBlock p with
    | .error e => .error e
    | .ok b =>
      match toContentBlocksGo rest with
      | .error e => .error e
      | .ok bs => .ok (b :: bs)

/-- `toContentBlocks`: at least one part is required. -/
def toContentBlocks (parts : List ContentPartV) : Except Str (List CBlock) :=
  if parts = [] then .error (str "content message must include at least one content part")
  else toContentBlocksGo parts

/-- `contentMessage` (claude): the system role is rejected for multimodal
messages. -/
def contentMessage (role : Str) (parts : List ContentPartV) :
    Except Str (Option CMessage × Str) :=
  match normalizeRole role with
  | .error e => .error e
  | .ok n =>
    if n = str "system" then .error (str "content messages cannot use system role")
    else
      match toContentBlocks parts with
      | .error e => .error e
      | .ok blocks => .ok (some { role := n, content := blocks }, [])

/-- The per-call body of `assistantToolCallMessage`: tool_use blocks with
trimmed names (required) and defaulted ids. -/
def toolUseBlocksFrom : Nat → List ToolCallV → Except Str (List CBlock)
  | _, [] => .ok []
  | i, c :: rest =>
    if trimSpace c.name = [] then
      .error (str ("tool call at index " ++ toString i ++ " is missing a name"))
    else
      let id := if trimSpace c.id = [] then str ("call_" ++ toString (i + 1)) else trimSpace c.id
      match toolUseBlocksFrom (i + 1) rest with
      | .error e => .error e
      | .ok bs =>
        .ok ({ type := str "tool_use", id := id, name := trimSpace c.name, input := c.args } :: bs)

/-- `assistantToolCallMessage` (claude). -/
def assistantToolCallMessage (role : Str) (calls : List ToolCallV) :
    Except Str (Option CMessage × Str) :=
  let r0 := trimSpace (toLowerStr role)
  let r := if r0 = [] then str "tool_call" else r0
  if r ≠ str "tool_call" ∧ r ≠ str "assistant" then
    .error (str "tool call message role must be tool_call or assistant")
  else if calls = [] then
    .error (str "assistant tool call message must include at least one tool call")
  else
    match toolUseBlocksFrom 0 calls with
    | .error e => .error e
    | .ok blocks => .ok (some { role := str "assistant", content := blocks }, [])

/-- `toolResultMessage` (claude): always lands as a user turn carrying a
tool_result block. -/
def toolResultMessage (role toolCallId content : Str) :
    Except Str (Option CMessage × Str) :=
  let r0 := trimSpace (toLowerStr role)
  let r := if r0 = [] then str "tool_result" else r0
  if r ≠ str "tool_result" ∧ r ≠ str "tool" ∧ r ≠ str "user" then
    .error (str "tool result message role must be tool_result, tool, or user")
  else if trimSpace toolCallId = [] then
    .error (str "tool result message tool call ID is required")
  else
    .ok (some { role := str "user",
                content := [{ type := str "tool_result",
                              toolUseId := trimSpace toolCallId, content := content }] }, [])

/-- `toMessage` (claude): dispatch over the message union. -/
def toMessage : CoreMessage → Except Str (Option CMessage × Str)
  | .text role content => textMessage role content
  | .contentMsg role parts => contentMessage role parts
  | .toolCall role calls => assistantToolCallMessage role calls
  | .toolResult role toolCallId _ content => toolResultMessage role toolCallId content

/-- The accumulator loop of `toMessagesAndSystem`. -/
def toMessagesAndSystemGo :
    List CoreMessage → List CMessage → List Str → Except Str (List CMessage × Str)
  | [], msgs, sysParts => .ok (msgs, List.intercalate (str "\n\n") sysParts)
  | m :: rest, msgs, sysParts =>
    match toMessage m with
    | .error e => .error e
    | .ok (msg?, sysText) =>
      let sysParts' := if sysText ≠ [] then sysParts ++ [sysText] else sysParts
      let msgs' :=
        match msg? with
        | some msg => msgs ++ [msg]
        | none => msgs
      toMessagesAndSystemGo rest msgs' sysParts'

/-- `toMessagesAndSystem` (claude): converts the message list, extracting
every system text into the separate system-instruction string. -/
def toMessagesAndSystem (messages : List CoreMessage) : Except Str (List CMessage × Str) :=
  toMessagesAndSystemGo messages [] []

end Claude

namespace OpenAI

/-- An openai `chatContentPart` (image/audio payloads flattened to the
fields the conversion writes). -/
structure OAIPart where
  type : Str := []
  text : Str := []
  imageURL : Str := []
  imageDetail : Str := []
  audioData : Str := []
  audioFormat : Str := []
deriving DecidableEq, Repr

/-- The content of an openai `chatMessage`: a plain string or a list of
typed parts. -/
inductive OAIContent where
  | plain (s : Str)
  | parts (ps : List OAIPart)
deriving DecidableEq, Repr

/-- An openai `chatMessage`. -/
structure OAIChatMessage where
  role : Str := []
  content : OAIContent := .plain []
  toolCalls : List ToolCallV := []
  toolCallId : Str := []
deriving DecidableEq, Repr

/-- `newTextChatMessage` (`openai/embed.go` 1026–1033): any non-blank
role — including `system` — is passed through unchanged as a
conversation turn. -/
def newTextChatMessage (role content : Str) : Except Str OAIChatMessage :=
  let r := trimSpace role
  if r = [] then .error (str "text message role is required")
  else .ok { role := r, content := .plain content }

/-- `audioFormatFromMime`. -/
def audioFormatFromMime (mime : Str) : Str :=
  let m := toLowerStr (trimSpace mime)
  if m = str "audio/mp3" ∨ m = str "audio/mpeg" then str "mp3"
  else if m = str "audio/wav" ∨ m = str "audio/wave" ∨ m = str "audio/x-wav" then str "wav"
  else if m = str "audio/flac" then str "flac"
  else if m = str "audio/ogg" then str "ogg"
  else if m = str "audio/webm" then str "webm"
  else []

/-- `imageURLFromSource` with `urlFromURLSource` / `dataURLFromDataSource`
inlined: URL sources pass their trimmed URL, data sources become a
`data:<mime>;base64,<data>` URI (raw base64 must not already carry a
`data:` prefix). -/
def imageURLFromSource : SourceV → Except Str Str
  | .url u _ =>
    if trimSpace u = [] then .error (str "image URL is required")
    else .ok (trimSpace u)
  | .data d m =>
    if trimSpace d = [] then .error (str "image data is required")
    else if (str "data:").isPrefixOf (trimSpace d) then .error (str "image data must be raw base64")
    else if trimSpace m = [] then .error (str "image mime type is required")
    else .ok (str "data:" ++ trimSpace m ++ str ";base64," ++ trimSpace d)

/-- `imageContentPart`. -/
def imageContentPart (s : Option SourceV) (detail : Str) : Except Str OAIPart :=
  match s with
  | none => .error (str "image source is required")
  | some src =>
    match imageURLFromSource src with
    | .error e => .error e
    | .ok url => .ok { type := str "image_url", imageURL := url, imageDetail := trimSpace detail }

/-- `audioContentPart` with `audioPayloadFromSource` inlined (URL sources
are unsupported for audio). -/
def audioContentPart (s : Option SourceV) : Except Str OAIPart :=
  match s with
  | none => .error (str "audio source is required")
  | some (.url _ _) => .error (str "unsupported audio source type")
  | some (.data d m) =>
    if trimSpace d = [] then .error (str "audio data is required")
    else if trimSpace m = [] then .error (str "audio mime type is required")
    else if audioFormatFromMime m = [] then .error (str "unsupported audio mime type")
    else .ok { type := str "input_audio", audioData := trimSpace d, audioFormat := audioFormatFromMime m }

/-- `toChatContentPart`. -/
def toChatContentPart : ContentPartV → Except Str OAIPart
  | .text t => .ok { type := str "text", text := t }
  | .image s detail => imageContentPart s detail
  | .audio s => audioContentPart s
  | .document none => .error (str "document source is required")
  | .document (some _) => .error (str "openai: document content is not supported")

/-- Elementwise conversion for `toChatContentParts`. -/
def toChatContentPartsGo : List ContentPartV → Except Str (List OAIPart)
  | [] => .ok []
  | p :: rest =>
    match toChatContentPart p with
    | .error e => .error e
    | .ok b =>
      match toChatContentPartsGo rest with
      | .error e => .error e
      | .ok bs => .ok (b :: bs)

/-- `toChatContentParts`: at least one part is required. -/
def toChatContentParts (parts : List ContentPartV) : Except Str (List OAIPart) :=
  if parts = [] then .error (str "content message must include at least one content part")
  else toChatContentPartsGo parts

/-- `newContentChatMessage` (openai): any non-blank role passes through. -/
def newContentChatMessage (role : Str) (parts : List ContentPartV) :
    Except Str OAIChatMessage :=
  let r := trimSpace role
  if r = [] then .error (str "content message role is required")
  else
    match toChatContentParts parts with
    | .error e => .error e
    | .ok ps => .ok { role := r, content := .parts ps }

/-- The per-call body of openai's outgoing `toChatToolCalls`: trimmed
names (required), defaulted ids, argument stringification abstracted. -/
def toChatToolCallsFrom : Nat → List ToolCallV → Except Str (List ToolCallV)
  | _, [] => .ok []
  | i, c :: rest =>
    if trimSpace c.name = [] then
      .error (str ("tool call at index " ++ toString i ++ " is missing a name"))
    else
      let id := if trimSpace c.id = [] then str ("call_" ++ toString (i + 1)) else trimSpace c.id
      match toChatToolCallsFrom (i + 1) rest with
      | .error e => .error e
      | .ok out => .ok ({ id := id, name := trimSpace c.name, args := c.args } :: out)

/-- `newAssistantToolCallChatMessage` (openai). -/
def newAssistantToolCallChatMessage (role : Str) (calls : List ToolCallV) :
    Except Str OAIChatMessage :=
  let r0 := toLowerStr (trimSpace role)
  let r := if r0 = [] then str "tool_call" else r0
  if r ≠ str "tool_call" ∧ r ≠ str "assistant" then
    .error (str "tool call message role must be tool_call or assistant")
  else if calls = [] then
    .error (str "assistant tool call message must include at least one tool call")
  else
    match toChatToolCallsFrom 0 calls with
    | .error e => .error e
    | .ok out => .ok { role := str "assistant", toolCalls := out }

/-- `newToolResultChatMessage` (openai). -/
def newToolResultChatMessage (role toolCallId content : Str) :
    Except Str OAIChatMessage :=
  let r0 := toLowerStr (trimSpace role)
  let r := if r0 = [] then str "tool_result" else r0
  if r ≠ str "tool_result" ∧ r ≠ str "tool" ∧ r ≠ str "user" then
    .error (str "tool result message role must be tool_result, tool, or user")
  else if trimSpace toolCallId = [] then
    .error (str "tool result message tool call ID is required")
  else
    .ok { role := str "tool", toolCallId := trimSpace toolCallId, content := .plain content }

/-- `toChatMessage` (openai): dispatch over the message union. -/
def toChatMessage : CoreMessage → Except Str OAIChatMessage
  | .text role content => newTextChatMessage role content
  | .contentMsg role parts => newContentChatMessage role parts
  | .toolCall role calls => newAssistantToolCallChatMessage role calls
  | .toolResult role toolCallId _ content => newToolResultChatMessage role toolCallId content

/-- `toChatMessages` (openai): every converted message — system-role
turns included — is appended to the outgoing list. -/
def toChatMessages : List CoreMessage → Except Str (List OAIChatMessage)
  | [] => .ok []
  | m :: rest =>
    match toChatMessage m with
    | .error e => .error e
    | .ok cm =>
      match toChatMessages rest with
      | .error e => .error e
      | .ok out => .ok (cm :: out)

end OpenAI

/-! Verification-side definitions (measures and predicates the theorems
are stated with; these are not part of the embedded source). -/

/-- Folding the delta reconciler over a sequence of observed fragments,
starting from a given snapshot: returns the final snapshot and the list
of returned deltas, in order. -/
def reconcileRun : Str → List Str → Str × List Str
  | snap, [] => (snap, [])
  | snap, frag :: rest =>
    let step := appendStreamSegment snap frag
    let next := reconcileRun step.1 rest
    (next.1, step.2 :: next.2)

/-- A conversation turn the agentic loop itself generates: an assistant
text turn, an assistant tool-call turn, or a tool-result turn. -/
def GeneratedTurn : CoreMessage → Prop
  | .text role _ => role = str "assistant"
  | .contentMsg _ _ => False
  | .toolCall role _ => role = str "tool_call"
  | .toolResult role _ _ _ => role = str "tool_result"

/-- A terminal stream chunk: `Done` or `Error`. -/
def IsTerminal (c : StreamChunk) : Prop :=
  c.type = str "done" ∨ c.type = str "error"

/-- A well-terminated chunk sequence: non-empty, its last chunk is the
single terminal chunk (so no `Done` ever follows an `Error`). -/
def WellTerminated (cs : List StreamChunk) : Prop :=
  ∃ pre t, cs = pre ++ [t] ∧ IsTerminal t ∧ ∀ c ∈ pre, ¬IsTerminal c

/-- Concatenation of the deltas of all content chunks, in order. -/
def contentDeltas : List StreamChunk → Str
  | [] => []
  | c :: rest => (if c.type = str "content" then c.delta else []) ++ contentDeltas rest

/-- The cumulative `Content` field of the last content chunk, or the
default when no content chunk occurs. -/
def lastContentD (dflt : Str) : List StreamChunk → Str
  | [] => dflt
  | c :: rest =>
    if c.type = str "content" then lastContentD c.content rest else lastContentD dflt rest

/-- Concatenation of the deltas of all reasoning chunks, in order. -/
def reasoningDeltas : List StreamChunk → Str
  | [] => []
  | c :: rest => (if c.type = str "reasoning" then c.delta else []) ++ reasoningDeltas rest

/-- The cumulative `Reasoning` field of the last reasoning chunk, or the
default when no reasoning chunk occurs. -/
def lastReasoningD (dflt : Str) : List StreamChunk → Str
  | [] => dflt
  | c :: rest =>
    if c.type = str "reasoning" then lastReasoningD c.reasoning rest else lastReasoningD dflt rest

/-- The number of reasoning chunks. -/
def reasoningCount : List StreamChunk → Nat
  | [] => 0
  | c :: rest => (if c.type = str "reasoning" then 1 else 0) + reasoningCount rest

/-- A concrete request for the C6 scenario: one server tool, one user
message. -/
def c6Params : ChatParams :=
  { tools := [.server (str "f") (fun _ => .ok (str "r"))],
    messages := [.text (str "user") (str "u")] }

/-- A concrete stream script for the C6 scenario: the model first calls
the server tool while also emitting assistant text `"A"`, then finishes
with text `"B"`.  With a server tool registered, `ChatStream` takes the
simulated replay path. -/
def c6Script : Ollama.StreamScript :=
  { chat := fun k =>
      if k = 0 then
        .ok { message := { content := str "A",
                           toolCalls := [{ id := str "1", name := str "f", args := str "x" }] } }
      else .ok { message := { content := str "B" } } }

/-! Helper lemmas about the delta reconciler. -/

theorem appendStreamSegment_fst_eq (c i : Str) :
    (appendStreamSegment c i).1 = c ++ (appendStreamSegment c i).2 := by
  unfold appendStreamSegment
  split
  · simp
  split
  · next _ h₂ =>
    obtain ⟨t, ht⟩ := List.isPrefixOf_iff_prefix.mp h₂
    simp [← ht]
  split <;> simp

theorem appendStreamSegment_absorb {c i : Str} (h : i.isPrefixOf c) :
    appendStreamSegment c i = (c, []) := by
  unfold appendStreamSegment
  split
  · rfl
  split
  · next _ h₂ =>
    have hic := List.isPrefixOf_iff_prefix.mp h
    have hci := List.isPrefixOf_iff_prefix.mp h₂
    have heq : i = c := hic.sublist.antisymm hci.sublist
    subst heq
    simp
  · rfl

theorem reconcileRun_fst_eq (frags : List Str) :
    ∀ snap : Str, (reconcileRun snap frags).1 = snap ++ ((reconcileRun snap frags).2).flatten := by
  induction frags with
  | nil => intro snap; simp [reconcileRun]
  | cons frag rest ih =>
    intro snap
    simp only [reconcileRun, List.flatten_cons]
    rw [ih, ← List.append_assoc, ← appendStreamSegment_fst_eq]

/-- C1: for every finite sequence of observed fragments — cumulative
snapshots, pure increments, adversarial repeats, any mix — folding
`appendStreamSegment` from the empty snapshot yields a final snapshot
equal to the concatenation of all returned deltas; and a fragment that is
a prefix of the current snapshot produces an empty delta and leaves the
snapshot unchanged (idempotent absorption). -/
theorem c1_delta_reconciler_round_trip :
    (∀ frags : List Str,
      (reconcileRun [] frags).1 = ((reconcileRun [] frags).2).flatten) ∧
    (∀ current fragment : Str, fragment.isPrefixOf current →
      appendStreamSegment current fragment = (current, [])) := by
  constructor
  · intro frags
    simpa using reconcileRun_fst_eq frags []
  · intro current fragment h
    exact appendStreamSegment_absorb h

/-- Witness for C1 at concrete inputs: a cumulative-snapshot sequence,
and absorption of a repeated (prefix) fragment. -/
theorem c1_delta_reconciler_round_trip_witness :
    (reconcileRun [] [str "The", str "The user", str "The user asks"]).1 =
      ((reconcileRun [] [str "The", str "The user", str "The user asks"]).2).flatten ∧
    appendStreamSegment (str "The user") (str "The") = (str "The user", []) :=
  ⟨c1_delta_reconciler_round_trip.1 [str "The", str "The user", str "The user asks"],
   c1_delta_reconciler_round_trip.2 (str "The user") (str "The") (by decide)⟩

/-- C9: for every previous snapshot and observed fragment, the new
snapshot returned by `appendStreamSegment` extends the previous snapshot
(the previous snapshot is a prefix — already-emitted text is never
rewritten and the snapshot never shrinks), and the returned delta is
exactly the new snapshot with the previous-snapshot prefix removed. -/
theorem c9_snapshot_monotone_delta_is_suffix (current fragment : Str) :
    current <+: (appendStreamSegment current fragment).1 ∧
    (appendStreamSegment current fragment).1 =
      current ++ (appendStreamSegment current fragment).2 ∧
    (appendStreamSegment current fragment).2 =
      ((appendStreamSegment current fragment).1).drop current.length := by
  refine ⟨⟨(appendStreamSegment current fragment).2, (appendStreamSegment_fst_eq _ _).symm⟩,
    appendStreamSegment_fst_eq _ _, ?_⟩
  rw [appendStreamSegment_fst_eq current fragment]
  simp

/-! Call-count lemmas for the openai agentic loop. -/

theorem openai_chatLoop_calls_le (cfg : ToolConfig)
    (script : Nat → Except Str OpenAI.Response) (fuel : Nat) :
    ∀ (k : Nat) (conv : List CoreMessage) (parts : List Str),
      (OpenAI.chatLoop cfg script fuel k conv parts).2 ≤ fuel := by
  induction fuel with
  | zero => intro k conv parts; simp [OpenAI.chatLoop]
  | succ fuel ih =>
    intro k conv parts
    simp only [OpenAI.chatLoop]
    split
    · simp
    split
    · simp
    split
    · simp
    split
    · simp
    split
    · simpa using Nat.succ_le_succ (ih (k + 1) _ _)
    · simp

theorem openai_chatLoop_calls_pos (cfg : ToolConfig)
    (script : Nat → Except Str OpenAI.Response) (fuel k : Nat)
    (conv : List CoreMessage) (parts : List Str) :
    1 ≤ (OpenAI.chatLoop cfg script (fuel + 1) k conv parts).2 := by
  simp only [OpenAI.chatLoop]
  split
  · simp
  split
  · simp
  split
  · simp
  split
  · simp
  split
  · simp
  · simp

theorem openai_chatLoop_calls_one (cfg : ToolConfig)
    (script : Nat → Except Str OpenAI.Response) (k : Nat)
    (conv : List CoreMessage) (parts : List Str) :
    (OpenAI.chatLoop cfg script 1 k conv parts).2 = 1 :=
  Nat.le_antisymm (openai_chatLoop_calls_le cfg script 1 k conv parts)
    (openai_chatLoop_calls_pos cfg script 0 k conv parts)

/-- C2: with no server tool registered (tool-free or client-tools-only),
the openai agentic loop performs exactly one transport call no matter
what `maxAgenticLoops` is configured; with server tools present the
iteration bound is `maxAgenticLoops` when positive and the default 8
otherwise, and the loop never performs more transport calls than its
bound. -/
theorem c2_max_loops_policy :
    (∀ params? : Option Int, maxLoops params? false = 1) ∧
    (∀ m : Int, 0 < m → maxLoops (some m) true = m) ∧
    (∀ m : Int, m ≤ 0 → maxLoops (some m) true = 8) ∧
    (maxLoops none true = 8) ∧
    (∀ (p : ChatParams) (script : Nat → Except Str OpenAI.Response) (cfg : ToolConfig),
      OpenAI.toChatTools p.tools = .ok cfg → cfg.serverTools = [] →
      (OpenAI.chat p script).2 = 1) ∧
    (∀ (cfg : ToolConfig) (script : Nat → Except Str OpenAI.Response)
      (fuel k : Nat) (conv : List CoreMessage) (parts : List Str),
      (OpenAI.chatLoop cfg script fuel k conv parts).2 ≤ fuel) := by
  refine ⟨?_, ?_, ?_, ?_, ?_, ?_⟩
  · intro params?; simp [maxLoops]
  · intro m hm; simp [maxLoops, hm, defaultMaxAgenticLoops]
  · intro m hm
    have : ¬m > 0 := by omega
    simp [maxLoops, this, defaultMaxAgenticLoops]
  · simp [maxLoops, defaultMaxAgenticLoops]
  · intro p script cfg hcfg hserver
    unfold OpenAI.chat
    rw [hcfg]
    simp only [hserver, List.isEmpty_nil, Bool.not_true]
    have : (maxLoops (some p.maxAgenticLoops) false).toNat = 1 := by
      simp [maxLoops]
    rw [this]
    exact openai_chatLoop_calls_one _ _ _ _ _
  · exact openai_chatLoop_calls_le

/-- Witness for C2: a client-tool-only request with `maxAgenticLoops = 99`
still performs exactly one transport call; positive and non-positive
bound configurations evaluate as claimed. -/
theorem c2_max_loops_policy_witness :
    maxLoops (some 5) true = 5 ∧
    maxLoops (some 0) true = 8 ∧
    (OpenAI.chat
      { tools := [.client (str "lookup")], maxAgenticLoops := 99,
        messages := [.text (str "user") (str "hi")] }
      (fun _ => .ok { choices := [{ text := str "ok" }] })).2 = 1 :=
  ⟨c2_max_loops_policy.2.1 5 (by decide),
   c2_max_loops_policy.2.2.1 0 (by decide),
   c2_max_loops_policy.2.2.2.2.1
     { tools := [.client (str "lookup")], maxAgenticLoops := 99,
       messages := [.text (str "user") (str "hi")] }
     (fun _ => .ok { choices := [{ text := str "ok" }] })
     { serverTools := [], clientTools := [str "lookup"] }
     rfl rfl⟩

theorem maxLoops_toNat_pos (q : Option Int) (b : Bool) : 0 < (maxLoops q b).toNat := by
  unfold maxLoops
  cases b <;> cases q <;> simp [defaultMaxAgenticLoops]
  split <;> omega

/-- C3 (openai conjunct): with one registered server tool and one
registered client tool, when the model's first assistant turn calls both,
`Chat` returns after that very iteration (one transport call) with
`finishReason = "tool_calls"`, the pending calls holding exactly the
client call, and a conversation already carrying the server tool's
result turn. -/
theorem openai_chat_mixed_tools (s c : Str) (h : Str → Except Str Str)
    (msgs : List CoreMessage) (L : Int) (ids idc args1 args2 fr tx rs : Str)
    (u : Option Usage) (script : Nat → Except Str OpenAI.Response)
    (hts : trimSpace s = s) (hs : s ≠ []) (htc : trimSpace c = c) (hc : c ≠ [])
    (hne : s ≠ c)
    (hscript : script 0 = .ok
      { choices := [{ finishReason := fr, text := tx, reasoning := rs,
                      toolCalls := [⟨ids, s, args1⟩, ⟨idc, c, args2⟩] }],
        usage := u }) :
    OpenAI.chat { tools := [.server s h, .client c], messages := msgs,
                  maxAgenticLoops := L } script =
      (.ok { text := []
             reasoning := joinReasoningParts (appendReasoningPart [] rs)
             messages := msgs ++
               [.toolCall (str "tool_call") [⟨ids, s, args1⟩, ⟨idc, c, args2⟩],
                .toolResult (str "tool_result") ids s
                  (match h args1 with
                   | .ok r => r
                   | .error e => str "tool_error: " ++ e)]
             toolCalls := [⟨idc, c, args2⟩]
             finishReason := str "tool_calls"
             usage := u }, 1) := by
  have hcfg : OpenAI.toChatTools [.server s h, .client c] =
      .ok { serverTools := [(s, h)], clientTools := [c] } := by
    simp [OpenAI.toChatTools, OpenAI.toChatToolsGo, hts, hs, htc, hc,
      List.contains, Ne.symm hne]
  obtain ⟨n, hn⟩ :=
    Nat.exists_eq_succ_of_ne_zero (Nat.pos_iff_ne_zero.mp
      (maxLoops_toNat_pos (some L) (!([(s, h)] : List (Str × _)).isEmpty)))
  unfold OpenAI.chat
  rw [hcfg]
  simp only [cloneCoreMessages]
  rw [hn]
  simp only [OpenAI.chatLoop, hscript]
  simp [processToolCalls, lookupServer, hne, List.contains]

/-- C3 (ollama conjunct): same scenario and outcome on the ollama loop;
a non-blank assistant text accompanying the calls is additionally
recorded as its own turn before the tool-call turn. -/
theorem ollama_chat_mixed_tools (s c : Str) (h : Str → Except Str Str)
    (msgs : List CoreMessage) (L : Int) (ids idc args1 args2 dr tx th : Str)
    (u : Option Usage) (script : Nat → Except Str Ollama.OResponse)
    (hts : trimSpace s = s) (hs : s ≠ []) (htc : trimSpace c = c) (hc : c ≠ [])
    (hids : trimSpace ids = ids) (hids0 : ids ≠ [])
    (hidc : trimSpace idc = idc) (hidc0 : idc ≠ [])
    (hne : s ≠ c)
    (hscript : script 0 = .ok
      { message := { content := tx, thinking := th,
                     toolCalls := [⟨ids, s, args1⟩, ⟨idc, c, args2⟩] },
        doneReason := dr, usage := u }) :
    Ollama.chat { tools := [.server s h, .client c], messages := msgs,
                  maxAgenticLoops := L } script =
      (.ok { text := []
             reasoning := joinReasoningParts (appendReasoningPart [] th)
             messages :=
               (if trimSpace tx ≠ [] then msgs ++ [.text (str "assistant") tx] else msgs) ++
               [.toolCall (str "tool_call") [⟨ids, s, args1⟩, ⟨idc, c, args2⟩],
                .toolResult (str "tool_result") ids s
                  (match h args1 with
                   | .ok r => r
                   | .error e => str "tool_error: " ++ e)]
             toolCalls := [⟨idc, c, args2⟩]
             finishReason := str "tool_calls"
             usage := u }, 1) := by
  have hcfg : Ollama.toTools [.server s h, .client c] =
      .ok { serverTools := [(s, h)], clientTools := [c] } := by
    simp [Ollama.toTools, Ollama.toToolsGo, hts, hs, htc, hc,
      List.contains, Ne.symm hne]
  obtain ⟨n, hn⟩ :=
    Nat.exists_eq_succ_of_ne_zero (Nat.pos_iff_ne_zero.mp
      (maxLoops_toNat_pos (some L) (!([(s, h)] : List (Str × _)).isEmpty)))
  unfold Ollama.chat
  rw [hcfg]
  simp only [cloneCoreMessages]
  rw [hn]
  simp only [Ollama.chatLoop, hscript]
  simp only [Ollama.toCoreToolCalls, Ollama.toCoreToolCallsFrom, hts, hs, htc, hc,
    hids, hids0, hidc, hidc0]
  simp [processToolCalls, lookupServer, hne, List.contains, hids, hidc]

/-- C3: for a chat request mixing one registered server tool and one
registered client tool whose first assistant turn calls both, `Chat`
(openai and ollama loops alike) stops immediately after that iteration —
exactly one transport call — and returns `finishReason = "tool_calls"`,
`pendingToolCalls` holding exactly the client call, and a conversation
that already contains the server tool's tool-result turn. -/
theorem c3_mixed_tools_client_handoff :
    (∀ (s c : Str) (h : Str → Except Str Str) (msgs : List CoreMessage) (L : Int)
      (ids idc args1 args2 fr tx rs : Str) (u : Option Usage)
      (script : Nat → Except Str OpenAI.Response),
      trimSpace s = s → s ≠ [] → trimSpace c = c → c ≠ [] → s ≠ c →
      script 0 = .ok
        { choices := [{ finishReason := fr, text := tx, reasoning := rs,
                        toolCalls := [⟨ids, s, args1⟩, ⟨idc, c, args2⟩] }],
          usage := u } →
      OpenAI.chat { tools := [.server s h, .client c], messages := msgs,
                    maxAgenticLoops := L } script =
        (.ok { text := []
               reasoning := joinReasoningParts (appendReasoningPart [] rs)
               messages := msgs ++
                 [.toolCall (str "tool_call") [⟨ids, s, args1⟩, ⟨idc, c, args2⟩],
                  .toolResult (str "tool_result") ids s
                    (match h args1 with
                     | .ok r => r
                     | .error e => str "tool_error: " ++ e)]
               toolCalls := [⟨idc, c, args2⟩]
               finishReason := str "tool_calls"
               usage := u }, 1)) ∧
    (∀ (s c : Str) (h : Str → Except Str Str) (msgs : List CoreMessage) (L : Int)
      (ids idc args1 args2 dr tx th : Str) (u : Option Usage)
      (script : Nat → Except Str Ollama.OResponse),
      trimSpace s = s → s ≠ [] → trimSpace c = c → c ≠ [] →
      trimSpace ids = ids → ids ≠ [] → trimSpace idc = idc → idc ≠ [] → s ≠ c →
      script 0 = .ok
        { message := { content := tx, thinking := th,
                       toolCalls := [⟨ids, s, args1⟩, ⟨idc, c, args2⟩] },
          doneReason := dr, usage := u } →
      Ollama.chat { tools := [.server s h, .client c], messages := msgs,
                    maxAgenticLoops := L } script =
        (.ok { text := []
               reasoning := joinReasoningParts (appendReasoningPart [] th)
               messages :=
                 (if trimSpace tx ≠ [] then msgs ++ [.text (str "assistant") tx] else msgs) ++
                 [.toolCall (str "tool_call") [⟨ids, s, args1⟩, ⟨idc, c, args2⟩],
                  .toolResult (str "tool_result") ids s
                    (match h args1 with
                     | .ok r => r
                     | .error e => str "tool_error: " ++ e)]
               toolCalls := [⟨idc, c, args2⟩]
               finishReason := str "tool_calls"
               usage := u }, 1)) :=
  ⟨openai_chat_mixed_tools, ollama_chat_mixed_tools⟩

/-- Witness for C3: a concrete weather/ask-user tool pair, on both the
openai and the ollama loop models. -/
theorem c3_mixed_tools_client_handoff_witness :
    OpenAI.chat { tools := [.server (str "get_weather") (fun _ => .ok (str "sunny")),
                            .client (str "ask_user")],
                  messages := [.text (str "user") (str "hi")], maxAgenticLoops := 0 }
        (fun _ => .ok
          { choices := [{ toolCalls := [⟨str "id1", str "get_weather", str "a1"⟩,
                                        ⟨str "id2", str "ask_user", str "a2"⟩] }] }) =
      (.ok { text := []
             reasoning := joinReasoningParts (appendReasoningPart [] [])
             messages := [.text (str "user") (str "hi")] ++
               [.toolCall (str "tool_call") [⟨str "id1", str "get_weather", str "a1"⟩,
                                             ⟨str "id2", str "ask_user", str "a2"⟩],
                .toolResult (str "tool_result") (str "id1") (str "get_weather")
                  (match (fun (_ : Str) => Except.ok (ε := Str) (str "sunny")) (str "a1") with
                   | .ok r => r
                   | .error e => str "tool_error: " ++ e)]
             toolCalls := [⟨str "id2", str "ask_user", str "a2"⟩]
             finishReason := str "tool_calls"
             usage := none }, 1) ∧
    Ollama.chat { tools := [.server (str "get_weather") (fun _ => .ok (str "sunny")),
                            .client (str "ask_user")],
                  messages := [.text (str "user") (str "hi")], maxAgenticLoops := 0 }
        (fun _ => .ok
          { message := { content := str "checking", thinking := [],
                         toolCalls := [⟨str "id1", str "get_weather", str "a1"⟩,
                                       ⟨str "id2", str "ask_user", str "a2"⟩] } }) =
      (.ok { text := []
             reasoning := joinReasoningParts (appendReasoningPart [] [])
             messages :=
               (if trimSpace (str "checking") ≠ [] then
                 [.text (str "user") (str "hi")] ++ [.text (str "assistant") (str "checking")]
                else [.text (str "user") (str "hi")]) ++
               [.toolCall (str "tool_call") [⟨str "id1", str "get_weather", str "a1"⟩,
                                             ⟨str "id2", str "ask_user", str "a2"⟩],
                .toolResult (str "tool_result") (str "id1") (str "get_weather")
                  (match (fun (_ : Str) => Except.ok (ε := Str) (str "sunny")) (str "a1") with
                   | .ok r => r
                   | .error e => str "tool_error: " ++ e)]
             toolCalls := [⟨str "id2", str "ask_user", str "a2"⟩]
             finishReason := str "tool_calls"
             usage := none }, 1) :=
  ⟨c3_mixed_tools_client_handoff.1 (str "get_weather") (str "ask_user")
      (fun _ => .ok (str "sunny")) [.text (str "user") (str "hi")] 0
      (str "id1") (str "id2") (str "a1") (str "a2") [] [] [] none _
      (by decide) (by decide) (by decide) (by decide) (by decide) rfl,
   c3_mixed_tools_client_handoff.2 (str "get_weather") (str "ask_user")
      (fun _ => .ok (str "sunny")) [.text (str "user") (str "hi")] 0
      (str "id1") (str "id2") (str "a1") (str "a2") [] (str "checking") [] none _
      (by decide) (by decide) (by decide) (by decide) (by decide) (by decide)
      (by decide) (by decide) (by decide) rfl⟩

/-- C4: when the model returns a tool call whose name matches neither a
registered server tool nor a registered client tool, `Chat` (openai and
claude loops alike) aborts the whole operation with a fatal error right
after the transport call that returned it — the pair's call count of 1
records that no further transport call is made — and the unrecognized
call is never silently dropped. -/
theorem c4_unregistered_tool_fatal :
    (∀ (cfg : ToolConfig) (script : Nat → Except Str OpenAI.Response)
      (fuel k : Nat) (conv : List CoreMessage) (parts : List Str)
      (fr tx rs id name args : Str) (u : Option Usage),
      script k = .ok
        { choices := [{ finishReason := fr, text := tx, reasoning := rs,
                        toolCalls := [⟨id, name, args⟩] }], usage := u } →
      lookupServer cfg.serverTools name = none →
      cfg.clientTools.contains name = false →
      OpenAI.chatLoop cfg script (fuel + 1) k conv parts =
        (.error (str "openai: tool " ++ name ++ str " was requested but not registered"), 1)) ∧
    (∀ (cfg : ToolConfig) (script : Nat → Except Str Claude.CResponse)
      (fuel k : Nat) (conv : List CoreMessage) (parts : List Str)
      (blocks : List Claude.CBlock) (sr id name args : Str) (u : Option Usage),
      script k = .ok { content := blocks, stopReason := sr, usage := u } →
      Claude.toCoreToolCalls blocks = [⟨id, name, args⟩] →
      lookupServer cfg.serverTools name = none →
      cfg.clientTools.contains name = false →
      Claude.chatLoop cfg script (fuel + 1) k conv parts =
        (.error (str "claude: tool " ++ name ++ str " was requested but not registered"), 1)) := by
  constructor
  · intro cfg script fuel k conv parts fr tx rs id name args u hscript hsrv hcli
    have hcli' : ¬name ∈ cfg.clientTools := by simpa using hcli
    simp only [OpenAI.chatLoop, hscript]
    simp [processToolCalls, hsrv, hcli']
  · intro cfg script fuel k conv parts blocks sr id name args u hscript hcalls hsrv hcli
    have hcli' : ¬name ∈ cfg.clientTools := by simpa using hcli
    simp only [Claude.chatLoop, hscript, hcalls]
    simp [processToolCalls, hsrv, hcli']

/-- Witness for C4: a model response calling the unknown name
`not_a_tool` aborts both loops after the single transport call. -/
theorem c4_unregistered_tool_fatal_witness :
    OpenAI.chatLoop { serverTools := [(str "srv", fun _ => .ok [])],
                      clientTools := [str "cli"] }
      (fun _ => .ok { choices := [{ toolCalls := [⟨str "i", str "not_a_tool", str "a"⟩] }] })
      8 0 [] [] =
      (.error (str "openai: tool " ++ str "not_a_tool" ++ str " was requested but not registered"), 1) ∧
    Claude.chatLoop { serverTools := [(str "srv", fun _ => .ok [])],
                      clientTools := [str "cli"] }
      (fun _ => .ok { content := [{ type := str "tool_use", id := str "i",
                                    name := str "not_a_tool", input := str "a" }] })
      8 0 [] [] =
      (.error (str "claude: tool " ++ str "not_a_tool" ++ str " was requested but not registered"), 1) :=
  ⟨c4_unregistered_tool_fatal.1 { serverTools := [(str "srv", fun _ => .ok [])],
                                  clientTools := [str "cli"] }
      (fun _ => .ok { choices := [{ toolCalls := [⟨str "i", str "not_a_tool", str "a"⟩] }] })
      7 0 [] [] [] [] [] (str "i") (str "not_a_tool") (str "a") none
      rfl rfl (by decide),
   c4_unregistered_tool_fatal.2 { serverTools := [(str "srv", fun _ => .ok [])],
                                  clientTools := [str "cli"] }
      (fun _ => .ok { content := [{ type := str "tool_use", id := str "i",
                                    name := str "not_a_tool", input := str "a" }] })
      7 0 [] [] [{ type := str "tool_use", id := str "i",
                   name := str "not_a_tool", input := str "a" }]
      [] (str "i") (str "not_a_tool") (str "a") none
      rfl (by decide) rfl (by decide)⟩

theorem ollama_chatLoop_calls_pos (cfg : ToolConfig)
    (script : Nat → Except Str Ollama.OResponse) (fuel k : Nat)
    (conv : List CoreMessage) (parts : List Str) :
    1 ≤ (Ollama.chatLoop cfg script (fuel + 1) k conv parts).2 := by
  simp only [Ollama.chatLoop]
  split
  · simp
  split
  · simp
  split
  · simp
  split
  · simp
  split
  · simp
  · simp

/-- C5: a server tool handler error is not fatal: the result is replaced
by `"tool_error: " ++ <message>`, appended to the conversation as a
normal tool-result turn, and the loop (openai and ollama alike) proceeds
to the next backend request — its transport-call count from this
iteration is at least 2 when budget remains. -/
theorem c5_handler_error_recovered :
    (∀ (cfg : ToolConfig) (script : Nat → Except Str OpenAI.Response)
      (fuel k : Nat) (conv : List CoreMessage) (parts : List Str)
      (fr tx rs id name args e : Str) (u : Option Usage)
      (handler : Str → Except Str Str),
      script k = .ok
        { choices := [{ finishReason := fr, text := tx, reasoning := rs,
                        toolCalls := [⟨id, name, args⟩] }], usage := u } →
      lookupServer cfg.serverTools name = some handler →
      handler args = .error e →
      OpenAI.chatLoop cfg script (fuel + 2) k conv parts =
        (let next := OpenAI.chatLoop cfg script (fuel + 1) (k + 1)
          (conv ++ [.toolCall (str "tool_call") [⟨id, name, args⟩],
                    .toolResult (str "tool_result") id name (str "tool_error: " ++ e)])
          (appendReasoningPart parts rs)
         (next.1, next.2 + 1)) ∧
      2 ≤ (OpenAI.chatLoop cfg script (fuel + 2) k conv parts).2) ∧
    (∀ (cfg : ToolConfig) (script : Nat → Except Str Ollama.OResponse)
      (fuel k : Nat) (conv : List CoreMessage) (parts : List Str)
      (dr tx th id name args e : Str) (u : Option Usage)
      (handler : Str → Except Str Str),
      trimSpace name = name → name ≠ [] → trimSpace id = id → id ≠ [] →
      script k = .ok
        { message := { content := tx, thinking := th, toolCalls := [⟨id, name, args⟩] },
          doneReason := dr, usage := u } →
      lookupServer cfg.serverTools name = some handler →
      handler args = .error e →
      Ollama.chatLoop cfg script (fuel + 2) k conv parts =
        (let next := Ollama.chatLoop cfg script (fuel + 1) (k + 1)
          ((if trimSpace tx ≠ [] then conv ++ [.text (str "assistant") tx] else conv) ++
           [.toolCall (str "tool_call") [⟨id, name, args⟩],
            .toolResult (str "tool_result") id name (str "tool_error: " ++ e)])
          (appendReasoningPart parts th)
         (next.1, next.2 + 1)) ∧
      2 ≤ (Ollama.chatLoop cfg script (fuel + 2) k conv parts).2) := by
  constructor
  · intro cfg script fuel k conv parts fr tx rs id name args e u handler
      hscript hsrv herr
    have hstep : OpenAI.chatLoop cfg script (fuel + 2) k conv parts =
        (let next := OpenAI.chatLoop cfg script (fuel + 1) (k + 1)
          (conv ++ [.toolCall (str "tool_call") [⟨id, name, args⟩],
                    .toolResult (str "tool_result") id name (str "tool_error: " ++ e)])
          (appendReasoningPart parts rs)
         (next.1, next.2 + 1)) := by
      show OpenAI.chatLoop cfg script (fuel + 1 + 1) k conv parts = _
      simp only [OpenAI.chatLoop, hscript]
      simp [processToolCalls, hsrv, herr]
    refine ⟨hstep, ?_⟩
    rw [hstep]
    have := openai_chatLoop_calls_pos cfg script fuel (k + 1)
      (conv ++ [.toolCall (str "tool_call") [⟨id, name, args⟩],
                .toolResult (str "tool_result") id name (str "tool_error: " ++ e)])
      (appendReasoningPart parts rs)
    simpa using Nat.succ_le_succ this
  · intro cfg script fuel k conv parts dr tx th id name args e u handler
      htn hn hti hi hscript hsrv herr
    have hstep : Ollama.chatLoop cfg script (fuel + 2) k conv parts =
        (let next := Ollama.chatLoop cfg script (fuel + 1) (k + 1)
          ((if trimSpace tx ≠ [] then conv ++ [.text (str "assistant") tx] else conv) ++
           [.toolCall (str "tool_call") [⟨id, name, args⟩],
            .toolResult (str "tool_result") id name (str "tool_error: " ++ e)])
          (appendReasoningPart parts th)
         (next.1, next.2 + 1)) := by
      show Ollama.chatLoop cfg script (fuel + 1 + 1) k conv parts = _
      simp only [Ollama.chatLoop, hscript]
      simp only [Ollama.toCoreToolCalls, Ollama.toCoreToolCallsFrom, htn, hn, hti, hi]
      simp [processToolCalls, hsrv, herr, htn, hti]
    refine ⟨hstep, ?_⟩
    rw [hstep]
    have := ollama_chatLoop_calls_pos cfg script fuel (k + 1)
      ((if trimSpace tx ≠ [] then conv ++ [.text (str "assistant") tx] else conv) ++
       [.toolCall (str "tool_call") [⟨id, name, args⟩],
        .toolResult (str "tool_result") id name (str "tool_error: " ++ e)])
      (appendReasoningPart parts th)
    simpa using Nat.succ_le_succ this

/-- Witness for C5: a failing handler on both loops; the follow-up
request completes normally, so the loop visibly continued. -/
theorem c5_handler_error_recovered_witness :
    (OpenAI.chatLoop { serverTools := [(str "srv", fun _ => .error (str "boom"))],
                       clientTools := [] }
      (fun k => if k = 0 then
         .ok { choices := [{ toolCalls := [⟨str "i", str "srv", str "a"⟩] }] }
       else .ok { choices := [{ text := str "done" }] })
      2 0 [] [] =
      (let next := OpenAI.chatLoop { serverTools := [(str "srv", fun _ => .error (str "boom"))],
                                     clientTools := [] }
        (fun k => if k = 0 then
           .ok { choices := [{ toolCalls := [⟨str "i", str "srv", str "a"⟩] }] }
         else .ok { choices := [{ text := str "done" }] })
        1 1
        ([] ++ [.toolCall (str "tool_call") [⟨str "i", str "srv", str "a"⟩],
                .toolResult (str "tool_result") (str "i") (str "srv")
                  (str "tool_error: " ++ str "boom")])
        (appendReasoningPart [] [])
       (next.1, next.2 + 1))) ∧
    2 ≤ (OpenAI.chatLoop { serverTools := [(str "srv", fun _ => .error (str "boom"))],
                           clientTools := [] }
      (fun k => if k = 0 then
         .ok { choices := [{ toolCalls := [⟨str "i", str "srv", str "a"⟩] }] }
       else .ok { choices := [{ text := str "done" }] })
      2 0 [] []).2 :=
  c5_handler_error_recovered.1 { serverTools := [(str "srv", fun _ => .error (str "boom"))],
                                 clientTools := [] }
    (fun k => if k = 0 then
       .ok { choices := [{ toolCalls := [⟨str "i", str "srv", str "a"⟩] }] }
     else .ok { choices := [{ text := str "done" }] })
    0 0 [] [] [] [] [] (str "i") (str "srv") (str "a") (str "boom") none
    (fun _ => .error (str "boom")) rfl rfl rfl

/-! Conversation-structure lemmas for C10. -/

theorem processToolCalls_conv_structure (pfx : Str) (cfg : ToolConfig) :
    ∀ (calls : List ToolCallV) (conv : List CoreMessage) (pending : List ToolCallV)
      (conv2 : List CoreMessage) (p2 : List ToolCallV),
      processToolCalls pfx cfg calls conv pending = .ok (conv2, p2) →
      ∃ add, conv2 = conv ++ add ∧ ∀ m ∈ add, GeneratedTurn m := by
  intro calls
  induction calls with
  | nil =>
    intro conv pending conv2 p2 h
    simp only [processToolCalls, Except.ok.injEq, Prod.mk.injEq] at h
    exact ⟨[], by simp [← h.1], by simp⟩
  | cons call rest ih =>
    intro conv pending conv2 p2 h
    simp only [processToolCalls] at h
    cases hl : lookupServer cfg.serverTools call.name with
    | some handler =>
      rw [hl] at h
      obtain ⟨add, hadd, hgen⟩ := ih _ _ _ _ h
      refine ⟨[CoreMessage.toolResult (str "tool_result") call.id call.name
        (match handler call.args with
         | .ok r => r
         | .error e => str "tool_error: " ++ e)] ++ add, by simpa using hadd, ?_⟩
      intro m hm
      rcases List.mem_append.mp hm with hm | hm
      · simp at hm; subst hm; simp [GeneratedTurn]
      · exact hgen m hm
    | none =>
      rw [hl] at h
      by_cases hc : cfg.clientTools.contains call.name
      · rw [if_pos hc] at h
        exact ih _ _ _ _ h
      · rw [if_neg hc] at h
        exact absurd h (by simp)

theorem openai_chatLoop_messages_structure (cfg : ToolConfig)
    (script : Nat → Except Str OpenAI.Response) :
    ∀ (fuel k : Nat) (conv : List CoreMessage) (parts : List Str)
      (r : ChatResult) (c : Nat),
      OpenAI.chatLoop cfg script fuel k conv parts = (.ok r, c) →
      ∃ gen, r.messages = conv ++ gen ∧ ∀ m ∈ gen, GeneratedTurn m := by
  intro fuel
  induction fuel with
  | zero =>
    intro k conv parts r c h
    simp [OpenAI.chatLoop] at h
  | succ fuel ih =>
    intro k conv parts r c h
    simp only [OpenAI.chatLoop] at h
    cases hs : script k with
    | error e => simp only [hs] at h; simp at h
    | ok resp =>
      simp only [hs] at h
      cases hch : resp.choices with
      | nil => simp only [hch] at h; simp at h
      | cons choice restChoices =>
        simp only [hch] at h
        cases hcalls : choice.toolCalls with
        | nil =>
          simp only [hcalls] at h
          simp only [Except.ok.injEq, Prod.mk.injEq] at h
          refine ⟨[.text (str "assistant") choice.text], ?_, by simp [GeneratedTurn]⟩
          rw [← h.1]
        | cons c0 crest =>
          simp only [hcalls] at h
          cases hp : processToolCalls (str "openai: tool ") cfg (c0 :: crest)
              (conv ++ [.toolCall (str "tool_call") (c0 :: crest)]) [] with
          | error e => simp only [hp] at h; simp at h
          | ok pair =>
            obtain ⟨conv2, pending⟩ := pair
            simp only [hp] at h
            obtain ⟨add, hadd, hgen⟩ :=
              processToolCalls_conv_structure _ _ _ _ _ _ _ hp
            have hconv2 : conv2 =
                conv ++ ([CoreMessage.toolCall (str "tool_call") (c0 :: crest)] ++ add) := by
              simpa using hadd
            have hgen2 : ∀ m ∈ [CoreMessage.toolCall (str "tool_call") (c0 :: crest)] ++ add,
                GeneratedTurn m := by
              intro m hm
              rcases List.mem_append.mp hm with hm | hm
              · simp at hm; subst hm; simp [GeneratedTurn]
              · exact hgen m hm
            cases pending with
            | nil =>
              simp only [Prod.mk.injEq] at h
              obtain ⟨gen, hg, hgall⟩ := ih (k + 1) conv2
                (appendReasoningPart parts choice.reasoning) r
                (OpenAI.chatLoop cfg script fuel (k + 1) conv2
                  (appendReasoningPart parts choice.reasoning)).2
                (by rw [← h.1])
              refine ⟨[CoreMessage.toolCall (str "tool_call") (c0 :: crest)] ++ add ++ gen, ?_, ?_⟩
              · rw [hg, hconv2]; simp
              · intro m hm
                rcases List.mem_append.mp hm with hm | hm
                · exact hgen2 m hm
                · exact hgall m hm
            | cons p0 prest =>
              simp only [Except.ok.injEq, Prod.mk.injEq] at h
              refine ⟨[CoreMessage.toolCall (str "tool_call") (c0 :: crest)] ++ add, ?_, hgen2⟩
              rw [← h.1]
              exact hconv2

theorem ollama_chatLoop_messages_structure (cfg : ToolConfig)
    (script : Nat → Except Str Ollama.OResponse) :
    ∀ (fuel k : Nat) (conv : List CoreMessage) (parts : List Str)
      (r : ChatResult) (c : Nat),
      Ollama.chatLoop cfg script fuel k conv parts = (.ok r, c) →
      ∃ gen, r.messages = conv ++ gen ∧ ∀ m ∈ gen, GeneratedTurn m := by
  intro fuel
  induction fuel with
  | zero =>
    intro k conv parts r c h
    simp [Ollama.chatLoop] at h
  | succ fuel ih =>
    intro k conv parts r c h
    simp only [Ollama.chatLoop] at h
    cases hs : script k with
    | error e => simp only [hs] at h; simp at h
    | ok resp =>
      simp only [hs] at h
      cases hcalls : resp.message.toolCalls with
      | nil =>
        simp only [hcalls] at h
        simp only [Except.ok.injEq, Prod.mk.injEq] at h
        refine ⟨[.text (str "assistant") resp.message.content], ?_, by simp [GeneratedTurn]⟩
        rw [← h.1]
      | cons c0 crest =>
        simp only [hcalls] at h
        cases hcc : Ollama.toCoreToolCalls (c0 :: crest) with
        | error e => simp only [hcc] at h; simp at h
        | ok coreCalls =>
          simp only [hcc] at h
          set conv0 := if trimSpace resp.message.content ≠ [] then
            conv ++ [CoreMessage.text (str "assistant") resp.message.content] else conv with hconv0
          have hconv0' : ∃ pre, conv0 = conv ++ pre ∧ ∀ m ∈ pre, GeneratedTurn m := by
            rw [hconv0]
            split
            · exact ⟨[.text (str "assistant") resp.message.content], rfl, by simp [GeneratedTurn]⟩
            · exact ⟨[], by simp, by simp⟩
          obtain ⟨pre, hpre, hpregen⟩ := hconv0'
          cases hp : processToolCalls (str "ollama: tool ") cfg coreCalls
              (conv0 ++ [.toolCall (str "tool_call") coreCalls]) [] with
          | error e => simp only [hp] at h; simp at h
          | ok pair =>
            obtain ⟨conv2, pending⟩ := pair
            simp only [hp] at h
            obtain ⟨add, hadd, hgen⟩ :=
              processToolCalls_conv_structure _ _ _ _ _ _ _ hp
            have hconv2 : conv2 = conv ++ (pre ++ [CoreMessage.toolCall (str "tool_call") coreCalls] ++ add) := by
              rw [hadd, hpre]; simp
            have hgen2 : ∀ m ∈ pre ++ [CoreMessage.toolCall (str "tool_call") coreCalls] ++ add,
                GeneratedTurn m := by
              intro m hm
              rcases List.mem_append.mp hm with hm | hm
              · rcases List.mem_append.mp hm with hm | hm
                · exact hpregen m hm
                · simp at hm; subst hm; simp [GeneratedTurn]
              · exact hgen m hm
            cases pending with
            | nil =>
              simp only [Prod.mk.injEq] at h
              obtain ⟨gen, hg, hgall⟩ := ih (k + 1) conv2
                (appendReasoningPart parts resp.message.thinking) r
                (Ollama.chatLoop cfg script fuel (k + 1) conv2
                  (appendReasoningPart parts resp.message.thinking)).2
                (by rw [← h.1])
              refine ⟨(pre ++ [CoreMessage.toolCall (str "tool_call") coreCalls] ++ add) ++ gen, ?_, ?_⟩
              · rw [hg, hconv2]; simp
              · intro m hm
                rcases List.mem_append.mp hm with hm | hm
                · exact hgen2 m hm
                · exact hgall m hm
            | cons p0 prest =>
              simp only [Except.ok.injEq, Prod.mk.injEq] at h
              refine ⟨pre ++ [CoreMessage.toolCall (str "tool_call") coreCalls] ++ add, ?_, hgen2⟩
              rw [← h.1]
              exact hconv2

/-- C10: for every successful `Chat` call (openai and ollama loops
alike), the returned `ChatResult.Messages` starts with exactly the
caller's input messages, unchanged and in order, followed only by turns
the loop itself generated (assistant text, tool-call, or tool-result
turns).  In the pure embedding the caller's `params.Messages` value is
never mutated; `cloneCoreMessages` and the `append([]...)` copies in the
source realize the same non-interference for Go slices. -/
theorem c10_result_messages_extend_input :
    (∀ (p : ChatParams) (script : Nat → Except Str OpenAI.Response)
      (r : ChatResult) (c : Nat),
      OpenAI.chat p script = (.ok r, c) →
      r.messages.take p.messages.length = p.messages ∧
      ∀ m ∈ r.messages.drop p.messages.length, GeneratedTurn m) ∧
    (∀ (p : ChatParams) (script : Nat → Except Str Ollama.OResponse)
      (r : ChatResult) (c : Nat),
      Ollama.chat p script = (.ok r, c) →
      r.messages.take p.messages.length = p.messages ∧
      ∀ m ∈ r.messages.drop p.messages.length, GeneratedTurn m) := by
  constructor
  · intro p script r c h
    unfold OpenAI.chat at h
    cases ht : OpenAI.toChatTools p.tools with
    | error e => simp only [ht] at h; simp at h
    | ok cfg =>
      simp only [ht, cloneCoreMessages] at h
      obtain ⟨gen, hg, hgen⟩ := openai_chatLoop_messages_structure cfg script _ _ _ _ _ _ h
      rw [hg]
      constructor
      · exact List.take_left p.messages gen
      · intro m hm
        rw [List.drop_left] at hm
        exact hgen m hm
  · intro p script r c h
    unfold Ollama.chat at h
    cases ht : Ollama.toTools p.tools with
    | error e => simp only [ht] at h; simp at h
    | ok cfg =>
      simp only [ht, cloneCoreMessages] at h
      obtain ⟨gen, hg, hgen⟩ := ollama_chatLoop_messages_structure cfg script _ _ _ _ _ _ h
      rw [hg]
      constructor
      · exact List.take_left p.messages gen
      · intro m hm
        rw [List.drop_left] at hm
        exact hgen m hm

/-- Witness for C10: a tool-free request on both loops; the result's
messages are the input followed only by the generated assistant turn. -/
theorem c10_result_messages_extend_input_witness :
    (({ text := str "ok", reasoning := [],
        messages := [.text (str "user") (str "hi"), .text (str "assistant") (str "ok")],
        toolCalls := [], finishReason := str "stop", usage := none } : ChatResult).messages.take 1 =
      [CoreMessage.text (str "user") (str "hi")]) ∧
    (∀ m ∈ ({ text := str "ok", reasoning := [],
              messages := [.text (str "user") (str "hi"), .text (str "assistant") (str "ok")],
              toolCalls := [], finishReason := str "stop", usage := none } : ChatResult).messages.drop 1,
      GeneratedTurn m) ∧
    (({ text := str "ok", reasoning := [],
        messages := [.text (str "user") (str "hi"), .text (str "assistant") (str "ok")],
        toolCalls := [], finishReason := str "stop", usage := none } : ChatResult).messages.take 1 =
      [CoreMessage.text (str "user") (str "hi")]) :=
  ⟨(c10_result_messages_extend_input.1
      { messages := [.text (str "user") (str "hi")] }
      (fun _ => .ok { choices := [{ text := str "ok" }] })
      { text := str "ok", reasoning := [],
        messages := [.text (str "user") (str "hi"), .text (str "assistant") (str "ok")],
        toolCalls := [], finishReason := str "stop", usage := none } 1 rfl).1,
   (c10_result_messages_extend_input.1
      { messages := [.text (str "user") (str "hi")] }
      (fun _ => .ok { choices := [{ text := str "ok" }] })
      { text := str "ok", reasoning := [],
        messages := [.text (str "user") (str "hi"), .text (str "assistant") (str "ok")],
        toolCalls := [], finishReason := str "stop", usage := none } 1 rfl).2,
   (c10_result_messages_extend_input.2
      { messages := [.text (str "user") (str "hi")] }
      (fun _ => .ok { message := { content := str "ok" } })
      { text := str "ok", reasoning := [],
        messages := [.text (str "user") (str "hi"), .text (str "assistant") (str "ok")],
        toolCalls := [], finishReason := str "stop", usage := none } 1 rfl).1⟩

/-! Stream-termination machinery for C8. -/

theorem wellTerminated_single {t : StreamChunk} (h : IsTerminal t) :
    WellTerminated [t] :=
  ⟨[], t, rfl, h, by simp⟩

theorem wellTerminated_prepend {ns cs : List StreamChunk}
    (hns : ∀ c ∈ ns, ¬IsTerminal c) (hcs : WellTerminated cs) :
    WellTerminated (ns ++ cs) := by
  obtain ⟨pre, t, rfl, ht, hpre⟩ := hcs
  refine ⟨ns ++ pre, t, by simp, ht, ?_⟩
  intro c hc
  rcases List.mem_append.mp hc with h | h
  · exact hns c h
  · exact hpre c h

theorem not_isTerminal_of_type {c : StreamChunk}
    (h : c.type = str "content" ∨ c.type = str "reasoning" ∨
      c.type = str "tool_call" ∨ c.type = str "tool_result") :
    ¬IsTerminal c := by
  intro ht
  rcases ht with ht | ht <;>
    rcases h with h | h | h | h <;> rw [h] at ht <;> exact absurd ht (by decide)

theorem chunksOfMessage_nonterminal (m : CoreMessage) :
    ∀ c ∈ chunksOfMessage m, ¬IsTerminal c := by
  cases m with
  | text role content =>
    intro c hc
    simp only [chunksOfMessage] at hc
    split at hc
    · simp at hc; subst hc; exact not_isTerminal_of_type (Or.inl rfl)
    · simp at hc
  | contentMsg role parts => intro c hc; simp [chunksOfMessage] at hc
  | toolCall role calls =>
    intro c hc
    simp only [chunksOfMessage] at hc
    obtain ⟨call, _, rfl⟩ := List.mem_map.mp hc
    exact not_isTerminal_of_type (Or.inr (Or.inr (Or.inl rfl)))
  | toolResult role id name content =>
    intro c hc
    simp only [chunksOfMessage] at hc
    simp at hc; subst hc
    exact not_isTerminal_of_type (Or.inr (Or.inr (Or.inr rfl)))

theorem emitChunksFromResult_nonterminal (paramsLen : Nat) (r : ChatResult) :
    ∀ c ∈ emitChunksFromResult paramsLen r, ¬IsTerminal c := by
  intro c hc
  simp only [emitChunksFromResult] at hc
  rcases List.mem_append.mp hc with hc | hc
  · split at hc
    · simp at hc; subst hc; exact not_isTerminal_of_type (Or.inr (Or.inl rfl))
    · simp at hc
  · obtain ⟨cs, hcs, hcmem⟩ := List.mem_flatten.mp hc
    obtain ⟨m, _, rfl⟩ := List.mem_map.mp hcs
    exact chunksOfMessage_nonterminal m c hcmem

theorem claude_deltaStep_nonterminal (e : Claude.CEvent) (content : Str)
    (parts : List Str) :
    ∀ c ∈ (Claude.deltaStep e content parts).1, ¬IsTerminal c := by
  intro c hc
  simp only [Claude.deltaStep] at hc
  split at hc
  · split at hc
    · split at hc
      · simp at hc; subst hc; exact not_isTerminal_of_type (Or.inl rfl)
      · split at hc
        · split at hc
          · simp at hc; subst hc; exact not_isTerminal_of_type (Or.inr (Or.inl rfl))
          · simp at hc
        · simp at hc
    · simp at hc
  · simp at hc

theorem claude_liveLoop_wellTerminated (scanErr : Bool) :
    ∀ (lines : List Claude.CLine) (content : Str) (parts : List Str)
      (usage : Option Usage),
      WellTerminated (Claude.liveLoop scanErr lines content parts usage) := by
  intro lines
  induction lines with
  | nil =>
    intro content parts usage
    simp only [Claude.liveLoop]
    split
    · exact wellTerminated_single (Or.inr rfl)
    · exact wellTerminated_single (Or.inl rfl)
  | cons l rest ih =>
    intro content parts usage
    cases l with
    | skip => simpa only [Claude.liveLoop] using ih content parts usage
    | bad => exact wellTerminated_single (Or.inr rfl)
    | event e =>
      simp only [Claude.liveLoop]
      split
      · exact wellTerminated_single (Or.inr rfl)
      · split
        · exact wellTerminated_prepend (claude_deltaStep_nonterminal e content parts)
            (wellTerminated_single (Or.inl rfl))
        · exact wellTerminated_prepend (claude_deltaStep_nonterminal e content parts)
            (ih _ _ _)

theorem ollama_liveLoop_wellTerminated (scanErr : Bool) :
    ∀ (lines : List Ollama.OLine) (content reasoning : Str) (usage : Option Usage),
      WellTerminated (Ollama.liveLoop scanErr lines content reasoning usage) := by
  intro lines
  induction lines with
  | nil =>
    intro content reasoning usage
    simp only [Ollama.liveLoop]
    split
    · exact wellTerminated_single (Or.inr rfl)
    · exact wellTerminated_single (Or.inl rfl)
  | cons l rest ih =>
    intro content reasoning usage
    cases l with
    | bad => exact wellTerminated_single (Or.inr rfl)
    | event e =>
      simp only [Ollama.liveLoop]
      have hr : ∀ c ∈ (if (appendStreamSegment reasoning (trimSpace e.message.thinking)).2 ≠ [] then
          ([{ type := str "reasoning", role := str "assistant",
              delta := (appendStreamSegment reasoning (trimSpace e.message.thinking)).2,
              reasoning := trimSpace (appendStreamSegment reasoning (trimSpace e.message.thinking)).1 }] :
            List StreamChunk)
          else []), ¬IsTerminal c := by
        intro c hc
        split at hc
        · simp at hc; subst hc; exact not_isTerminal_of_type (Or.inr (Or.inl rfl))
        · simp at hc
      have hcch : ∀ c ∈ (if (appendStreamSegment content e.message.content).2 ≠ [] then
          ([{ type := str "content", role := str "assistant",
              delta := (appendStreamSegment content e.message.content).2,
              content := (appendStreamSegment content e.message.content).1 }] : List StreamChunk)
          else []), ¬IsTerminal c := by
        intro c hc
        split at hc
        · simp at hc; subst hc; exact not_isTerminal_of_type (Or.inl rfl)
        · simp at hc
      split
      · refine wellTerminated_prepend ?_ (wellTerminated_single (Or.inl rfl))
        intro c hc
        rcases List.mem_append.mp hc with hc | hc
        · exact hr c hc
        · exact hcch c hc
      · refine wellTerminated_prepend ?_ (ih _ _ _)
        intro c hc
        rcases List.mem_append.mp hc with hc | hc
        · exact hr c hc
        · exact hcch c hc

/-- C8: every chunk sequence a `ChatStream` invocation delivers (claude
SSE producer and ollama NDJSON producer, live and simulated-replay paths
alike) ends with exactly one terminal chunk — `Done` or `Error` — which
is the last chunk before the channel closes; in particular no `Done` is
ever emitted after an `Error`. -/
theorem c8_streams_well_terminated :
    (∀ (p : ChatParams) (s : Claude.StreamScript) (cs : List StreamChunk),
      Claude.chatStream p s = .ok cs → WellTerminated cs) ∧
    (∀ (p : ChatParams) (s : Ollama.StreamScript) (cs : List StreamChunk),
      Ollama.chatStream p s = .ok cs → WellTerminated cs) := by
  constructor
  · intro p s cs h
    unfold Claude.chatStream at h
    cases hb : s.buildFail with
    | some e => rw [hb] at h; simp at h
    | none =>
      rw [hb] at h
      cases ht : Claude.toTools p.tools with
      | error e => rw [ht] at h; simp at h
      | ok cfg =>
        rw [ht] at h
        simp only [Except.ok.injEq] at h
        subst h
        split
        · cases hr : (Claude.chat p s.chat).1 with
          | error e => exact wellTerminated_single (Or.inr rfl)
          | ok r =>
            exact wellTerminated_prepend
              (emitChunksFromResult_nonterminal p.messages.length r)
              (wellTerminated_single (Or.inl rfl))
        · cases hp : s.preFail with
          | some e => exact wellTerminated_single (Or.inr rfl)
          | none => exact claude_liveLoop_wellTerminated s.scanErr s.lines [] [] none
  · intro p s cs h
    unfold Ollama.chatStream at h
    cases hb : s.buildFail with
    | some e => rw [hb] at h; simp at h
    | none =>
      rw [hb] at h
      cases ht : Ollama.toTools p.tools with
      | error e => rw [ht] at h; simp at h
      | ok cfg =>
        rw [ht] at h
        simp only [Except.ok.injEq] at h
        subst h
        split
        · cases hr : (Ollama.chat p s.chat).1 with
          | error e => exact wellTerminated_single (Or.inr rfl)
          | ok r =>
            exact wellTerminated_prepend
              (emitChunksFromResult_nonterminal p.messages.length r)
              (wellTerminated_single (Or.inl rfl))
        · cases hp : s.preFail with
          | some e => exact wellTerminated_single (Or.inr rfl)
          | none => exact ollama_liveLoop_wellTerminated s.scanErr s.lines [] [] none

/-- Witness for C8: a concrete two-event claude stream and a concrete
two-event ollama stream, both well-terminated. -/
theorem c8_streams_well_terminated_witness :
    WellTerminated (Claude.liveLoop false
      [.event { type := str "content_block_delta",
                delta := some { type := str "text_delta", text := str "Hi" } },
       .event { type := str "message_stop" }] [] [] none) ∧
    WellTerminated (Ollama.liveLoop false
      [.event { message := { content := str "Hi" } },
       .event { message := { content := str "!" }, done := true }] [] [] none) := by
  constructor
  · exact c8_streams_well_terminated.1 {}
      { lines := [.event { type := str "content_block_delta",
                           delta := some { type := str "text_delta", text := str "Hi" } },
                  .event { type := str "message_stop" }] } _ rfl
  · exact c8_streams_well_terminated.2 {}
      { lines := [.event { message := { content := str "Hi" } },
                  .event { message := { content := str "!" }, done := true }] } _ rfl

/-! Chunk-measure lemmas for C6. -/

theorem tyF_reasoning_content : (str "reasoning" = str "content") = False :=
  eq_false (by decide)

theorem tyF_done_content : (str "done" = str "content") = False :=
  eq_false (by decide)

theorem tyF_error_content : (str "error" = str "content") = False :=
  eq_false (by decide)

theorem tyF_content_reasoning : (str "content" = str "reasoning") = False :=
  eq_false (by decide)

theorem tyF_done_reasoning : (str "done" = str "reasoning") = False :=
  eq_false (by decide)

theorem tyF_error_reasoning : (str "error" = str "reasoning") = False :=
  eq_false (by decide)

theorem tyF_toolCall_content : (str "tool_call" = str "content") = False :=
  eq_false (by decide)

theorem tyF_toolResult_content : (str "tool_result" = str "content") = False :=
  eq_false (by decide)

theorem tyF_toolCall_reasoning : (str "tool_call" = str "reasoning") = False :=
  eq_false (by decide)

theorem tyF_toolResult_reasoning : (str "tool_result" = str "reasoning") = False :=
  eq_false (by decide)

theorem contentDeltas_append (xs ys : List StreamChunk) :
    contentDeltas (xs ++ ys) = contentDeltas xs ++ contentDeltas ys := by
  induction xs with
  | nil => simp [contentDeltas]
  | cons c rest ih => simp [contentDeltas, ih]

theorem lastContentD_append (d : Str) (xs ys : List StreamChunk) :
    lastContentD d (xs ++ ys) = lastContentD (lastContentD d xs) ys := by
  induction xs generalizing d with
  | nil => simp [lastContentD]
  | cons c rest ih =>
    simp only [List.cons_append, lastContentD]
    split <;> exact ih _

theorem reasoningDeltas_append (xs ys : List StreamChunk) :
    reasoningDeltas (xs ++ ys) = reasoningDeltas xs ++ reasoningDeltas ys := by
  induction xs with
  | nil => simp [reasoningDeltas]
  | cons c rest ih => simp [reasoningDeltas, ih]

theorem lastReasoningD_append (d : Str) (xs ys : List StreamChunk) :
    lastReasoningD d (xs ++ ys) = lastReasoningD (lastReasoningD d xs) ys := by
  induction xs generalizing d with
  | nil => simp [lastReasoningD]
  | cons c rest ih =>
    simp only [List.cons_append, lastReasoningD]
    split <;> exact ih _

theorem ollama_liveLoop_content_law (scanErr : Bool) :
    ∀ (lines : List Ollama.OLine) (content reasoning : Str) (usage : Option Usage),
      lastContentD content (Ollama.liveLoop scanErr lines content reasoning usage) =
        content ++ contentDeltas (Ollama.liveLoop scanErr lines content reasoning usage) := by
  intro lines
  induction lines with
  | nil =>
    intro content reasoning usage
    simp only [Ollama.liveLoop]
    split <;>
      simp [lastContentD, contentDeltas, tyF_error_content, tyF_done_content]
  | cons l rest ih =>
    intro content reasoning usage
    cases l with
    | bad => simp [Ollama.liveLoop, lastContentD, contentDeltas, tyF_error_content]
    | event e =>
      have hc := appendStreamSegment_fst_eq content e.message.content
      simp only [Ollama.liveLoop]
      split
      · rw [lastContentD_append, lastContentD_append,
          contentDeltas_append, contentDeltas_append]
        split_ifs with h1 h2 h2 <;>
          simp_all [lastContentD, contentDeltas, tyF_reasoning_content, tyF_done_content]
      · rw [lastContentD_append, lastContentD_append,
          contentDeltas_append, contentDeltas_append]
        split_ifs with h1 h2 h2 <;>
          simp_all [lastContentD, contentDeltas, tyF_reasoning_content, ih]

theorem ollama_liveLoop_reasoning_law (scanErr : Bool) :
    ∀ (lines : List Ollama.OLine) (content reasoning : Str) (usage : Option Usage),
      lastReasoningD (trimSpace reasoning) (Ollama.liveLoop scanErr lines content reasoning usage) =
        trimSpace (reasoning ++
          reasoningDeltas (Ollama.liveLoop scanErr lines content reasoning usage)) := by
  intro lines
  induction lines with
  | nil =>
    intro content reasoning usage
    simp only [Ollama.liveLoop]
    split <;>
      simp [lastReasoningD, reasoningDeltas, tyF_error_reasoning, tyF_done_reasoning]
  | cons l rest ih =>
    intro content reasoning usage
    cases l with
    | bad => simp [Ollama.liveLoop, lastReasoningD, reasoningDeltas, tyF_error_reasoning]
    | event e =>
      have hr := appendStreamSegment_fst_eq reasoning (trimSpace e.message.thinking)
      simp only [Ollama.liveLoop]
      split
      · rw [lastReasoningD_append, lastReasoningD_append,
          reasoningDeltas_append, reasoningDeltas_append]
        split_ifs with h1 h2 h2 <;>
          simp_all [lastReasoningD, reasoningDeltas, tyF_content_reasoning,
            tyF_done_reasoning]
      · rw [lastReasoningD_append, lastReasoningD_append,
          reasoningDeltas_append, reasoningDeltas_append]
        split_ifs with h1 h2 h2 <;>
          simp_all [lastReasoningD, reasoningDeltas, tyF_content_reasoning, ih]

theorem openai_processChoices_content (chs : List OpenAI.SChoice) :
    ∀ (content : Str) (parts : List Str) (fr : Str),
      (OpenAI.processChoices chs content parts fr).2.1 =
        content ++ contentDeltas (OpenAI.processChoices chs content parts fr).1 ∧
      lastContentD content (OpenAI.processChoices chs content parts fr).1 =
        (OpenAI.processChoices chs content parts fr).2.1 := by
  induction chs with
  | nil =>
    intro content parts fr
    simp [OpenAI.processChoices, contentDeltas, lastContentD]
  | cons ch rest ih =>
    intro content parts fr
    simp only [OpenAI.processChoices]
    split_ifs with hg ht <;>
      simp_all [contentDeltas_append, lastContentD_append, contentDeltas,
        lastContentD, tyF_reasoning_content, ih]

theorem openai_liveLoop_content_law (scanErr : Bool) :
    ∀ (lines : List OpenAI.OAILine) (content : Str) (parts : List Str)
      (fr : Str) (usage : Option Usage),
      lastContentD content (OpenAI.liveLoop scanErr lines content parts fr usage) =
        content ++ contentDeltas (OpenAI.liveLoop scanErr lines content parts fr usage) := by
  intro lines
  induction lines with
  | nil =>
    intro content parts fr usage
    simp only [OpenAI.liveLoop]
    split <;>
      simp [lastContentD, contentDeltas, tyF_error_content, tyF_done_content]
  | cons l rest ih =>
    intro content parts fr usage
    cases l with
    | skip => simpa only [OpenAI.liveLoop] using ih content parts fr usage
    | doneMarker =>
      simp [OpenAI.liveLoop, lastContentD, contentDeltas, tyF_done_content]
    | bad => simp [OpenAI.liveLoop, lastContentD, contentDeltas, tyF_error_content]
    | event e =>
      have hp := openai_processChoices_content e.choices content parts fr
      simp only [OpenAI.liveLoop]
      rw [lastContentD_append, contentDeltas_append, hp.2, ih]
      rw [hp.1]
      simp

theorem reasoningCount_append (xs ys : List StreamChunk) :
    reasoningCount (xs ++ ys) = reasoningCount xs + reasoningCount ys := by
  induction xs with
  | nil => simp [reasoningCount]
  | cons c rest ih => simp [reasoningCount, ih]; omega

theorem reasoningCount_chunksOfMessage (m : CoreMessage) :
    reasoningCount (chunksOfMessage m) = 0 := by
  cases m with
  | text role content =>
    simp only [chunksOfMessage]
    split <;> simp [reasoningCount, tyF_content_reasoning]
  | contentMsg role parts => simp [chunksOfMessage, reasoningCount]
  | toolCall role calls =>
    simp only [chunksOfMessage]
    induction calls with
    | nil => simp [reasoningCount]
    | cons c rest ih => simpa [reasoningCount, tyF_toolCall_reasoning] using ih
  | toolResult role id name content =>
    simp [chunksOfMessage, reasoningCount, tyF_toolResult_reasoning]

theorem reasoningCount_flattened (ms : List CoreMessage) :
    reasoningCount ((ms.map chunksOfMessage).flatten) = 0 := by
  induction ms with
  | nil => simp [reasoningCount]
  | cons m rest ih =>
    simp only [List.map_cons, List.flatten_cons]
    rw [reasoningCount_append, reasoningCount_chunksOfMessage, ih]

theorem chunksOfMessage_per_chunk (m : CoreMessage) :
    ∀ c ∈ chunksOfMessage m,
      (c.type = str "content" → c.delta = c.content) ∧
      (c.type = str "reasoning" → c.delta = c.reasoning) := by
  cases m with
  | text role content =>
    intro c hc
    simp only [chunksOfMessage] at hc
    split at hc
    · simp at hc; subst hc
      exact ⟨fun _ => rfl, fun h => absurd h (by simp [tyF_content_reasoning])⟩
    · simp at hc
  | contentMsg role parts => intro c hc; simp [chunksOfMessage] at hc
  | toolCall role calls =>
    intro c hc
    simp only [chunksOfMessage] at hc
    obtain ⟨call, _, rfl⟩ := List.mem_map.mp hc
    refine ⟨fun h => absurd h ?_, fun h => absurd h ?_⟩
    · simp [tyF_toolCall_content]
    · simp [tyF_toolCall_reasoning]
  | toolResult role id name content =>
    intro c hc
    simp only [chunksOfMessage] at hc
    simp at hc; subst hc
    refine ⟨fun h => absurd h ?_, fun h => absurd h ?_⟩
    · simp [tyF_toolResult_content]
    · simp [tyF_toolResult_reasoning]

theorem emitChunksFromResult_replay_facts (n : Nat) (r : ChatResult) :
    (∀ c ∈ emitChunksFromResult n r,
      (c.type = str "content" → c.delta = c.content) ∧
      (c.type = str "reasoning" → c.delta = c.reasoning)) ∧
    reasoningCount (emitChunksFromResult n r) ≤ 1 := by
  constructor
  · intro c hc
    simp only [emitChunksFromResult] at hc
    rcases List.mem_append.mp hc with hc | hc
    · split at hc
      · simp at hc; subst hc
        exact ⟨fun h => absurd h (by simp [tyF_reasoning_content]), fun _ => rfl⟩
      · simp at hc
    · obtain ⟨cs, hcs, hcmem⟩ := List.mem_flatten.mp hc
      obtain ⟨m, _, rfl⟩ := List.mem_map.mp hcs
      exact chunksOfMessage_per_chunk m c hcmem
  · simp only [emitChunksFromResult]
    rw [reasoningCount_append, reasoningCount_flattened]
    split <;> simp [reasoningCount]

/-- C6 counterexample: on the simulated replay path, a completed
`ChatStream` whose tool round left an intermediate assistant text turn
(`"A"`) before the final turn (`"B"`) emits two content chunks whose
deltas concatenate to `"AB"`, while the final content chunk's cumulative
`Content` field is only `"B"` — so the concatenation law of the claim
fails as stated. -/
theorem c6_counterexample :
    (Ollama.chatStream c6Params c6Script).toOption.map contentDeltas = some (str "AB") ∧
    (Ollama.chatStream c6Params c6Script).toOption.map (lastContentD []) = some (str "B") ∧
    str "AB" ≠ str "B" := by
  refine ⟨?_, ?_, by decide⟩ <;> decide

/-- C6 (amended): the delta-concatenation law holds on the live
streaming paths — for the ollama NDJSON loop the content deltas
concatenate to the final content chunk's cumulative `Content`, and the
final reasoning chunk's cumulative `Reasoning` equals the
whitespace-trimmed concatenation of the reasoning deltas; for the openai
SSE loop the content law holds likewise.  On the simulated replay path
every content chunk instead carries its own turn's text as both `Delta`
and cumulative `Content`, every reasoning chunk (at most one is emitted)
carries equal `Delta` and `Reasoning`, so the concatenation law holds
there exactly when at most one content turn is replayed. -/
theorem c6_stream_delta_concatenation_amended :
    (∀ (scanErr : Bool) (lines : List Ollama.OLine),
      lastContentD [] (Ollama.liveLoop scanErr lines [] [] none) =
        contentDeltas (Ollama.liveLoop scanErr lines [] [] none)) ∧
    (∀ (scanErr : Bool) (lines : List Ollama.OLine),
      lastReasoningD [] (Ollama.liveLoop scanErr lines [] [] none) =
        trimSpace (reasoningDeltas (Ollama.liveLoop scanErr lines [] [] none))) ∧
    (∀ (scanErr : Bool) (lines : List OpenAI.OAILine),
      lastContentD [] (OpenAI.liveLoop scanErr lines [] [] [] none) =
        contentDeltas (OpenAI.liveLoop scanErr lines [] [] [] none)) ∧
    (∀ (n : Nat) (r : ChatResult),
      (∀ c ∈ emitChunksFromResult n r,
        (c.type = str "content" → c.delta = c.content) ∧
        (c.type = str "reasoning" → c.delta = c.reasoning)) ∧
      reasoningCount (emitChunksFromResult n r) ≤ 1) := by
  refine ⟨?_, ?_, ?_, emitChunksFromResult_replay_facts⟩
  · intro scanErr lines
    simpa using ollama_liveLoop_content_law scanErr lines [] [] none
  · intro scanErr lines
    simpa using ollama_liveLoop_reasoning_law scanErr lines [] [] none
  · intro scanErr lines
    simpa using openai_liveLoop_content_law scanErr lines [] [] [] none

/-- Witness for the amended C6: concrete streams for each conjunct, and
the per-chunk replay facts evaluated on a concrete replayed result. -/
theorem c6_stream_delta_concatenation_amended_witness :
    lastContentD [] (Ollama.liveLoop false
      [.event { message := { content := str "He" } },
       .event { message := { content := str "Hello" }, done := true }] [] [] none) =
      contentDeltas (Ollama.liveLoop false
        [.event { message := { content := str "He" } },
         .event { message := { content := str "Hello" }, done := true }] [] [] none) ∧
    (({ type := str "content", role := str "assistant", delta := str "A",
        content := str "A" } : StreamChunk).type = str "content" →
      ({ type := str "content", role := str "assistant", delta := str "A",
         content := str "A" } : StreamChunk).delta =
        ({ type := str "content", role := str "assistant", delta := str "A",
           content := str "A" } : StreamChunk).content) :=
  ⟨c6_stream_delta_concatenation_amended.1 false
      [.event { message := { content := str "He" } },
       .event { message := { content := str "Hello" }, done := true }],
   ((c6_stream_delta_concatenation_amended.2.2.2 1
      { text := str "A", messages := [.text (str "user") (str "u"),
                                      .text (str "assistant") (str "A")] }).1
      { type := str "content", role := str "assistant", delta := str "A",
        content := str "A" } (by decide)).1⟩

/-! System-message handling lemmas for C7. -/

theorem claude_toMessage_no_system (m : CoreMessage) :
    ∀ (msg? : Option Claude.CMessage) (sys : Str),
      Claude.toMessage m = .ok (msg?, sys) →
      ∀ cm, msg? = some cm → cm.role ≠ str "system" := by
  cases m with
  | text role content =>
    intro msg? sys h cm hcm
    simp only [Claude.toMessage, Claude.textMessage] at h
    cases hn : Claude.normalizeRole role with
    | error e => simp only [hn] at h; simp at h
    | ok n =>
      simp only [hn] at h
      by_cases hsys : n = str "system"
      · rw [if_pos hsys] at h
        simp only [Except.ok.injEq, Prod.mk.injEq] at h
        rw [← h.1] at hcm
        simp at hcm
      · rw [if_neg hsys] at h
        simp only [Except.ok.injEq, Prod.mk.injEq] at h
        rw [← h.1] at hcm
        simp only [Option.some.injEq] at hcm
        rw [← hcm]
        simpa using hsys
  | contentMsg role parts =>
    intro msg? sys h cm hcm
    simp only [Claude.toMessage, Claude.contentMessage] at h
    cases hn : Claude.normalizeRole role with
    | error e => simp only [hn] at h; simp at h
    | ok n =>
      simp only [hn] at h
      by_cases hsys : n = str "system"
      · rw [if_pos hsys] at h; simp at h
      · rw [if_neg hsys] at h
        cases hb : Claude.toContentBlocks parts with
        | error e => simp only [hb] at h; simp at h
        | ok blocks =>
          simp only [hb] at h
          simp only [Except.ok.injEq, Prod.mk.injEq] at h
          rw [← h.1] at hcm
          simp only [Option.some.injEq] at hcm
          rw [← hcm]
          simpa using hsys
  | toolCall role calls =>
    intro msg? sys h cm hcm
    simp only [Claude.toMessage, Claude.assistantToolCallMessage] at h
    repeat' split at h
    all_goals try simp at h
    all_goals
      (rw [← h.1] at hcm
       simp only [Option.some.injEq] at hcm
       rw [← hcm]
       show str "assistant" ≠ str "system"
       decide)
  | toolResult role id name content =>
    intro msg? sys h cm hcm
    simp only [Claude.toMessage, Claude.toolResultMessage] at h
    repeat' split at h
    all_goals try simp at h
    all_goals
      (rw [← h.1] at hcm
       simp only [Option.some.injEq] at hcm
       rw [← hcm]
       show str "user" ≠ str "system"
       decide)

theorem claude_toMessagesAndSystemGo_no_system :
    ∀ (msgs : List CoreMessage) (acc : List Claude.CMessage) (sysParts : List Str)
      (out : List Claude.CMessage) (sys : Str),
      (∀ cm ∈ acc, cm.role ≠ str "system") →
      Claude.toMessagesAndSystemGo msgs acc sysParts = .ok (out, sys) →
      ∀ cm ∈ out, cm.role ≠ str "system" := by
  intro msgs
  induction msgs with
  | nil =>
    intro acc sysParts out sys hacc h
    simp only [Claude.toMessagesAndSystemGo, Except.ok.injEq, Prod.mk.injEq] at h
    rw [← h.1]
    exact hacc
  | cons m rest ih =>
    intro acc sysParts out sys hacc h
    simp only [Claude.toMessagesAndSystemGo] at h
    cases hm : Claude.toMessage m with
    | error e => rw [hm] at h; simp at h
    | ok pair =>
      obtain ⟨msg?, sysText⟩ := pair
      rw [hm] at h
      cases msg? with
      | none => exact ih _ _ _ _ hacc h
      | some cm0 =>
        refine ih _ _ _ _ ?_ h
        intro cm hcm
        rcases List.mem_append.mp hcm with hcm | hcm
        · exact hacc cm hcm
        · simp at hcm; subst hcm
          exact claude_toMessage_no_system m (some cm) sysText hm cm rfl

/-- C7 counterexample: the OpenAI converter accepts a system-role text
message and returns it as an ordinary outgoing conversation turn with
role `"system"` (`newTextChatMessage` passes any non-blank role
through), while the Claude converter extracts the same message into the
separate system-instruction string — so "no system message is ever sent
as a conversation turn to the backend" is false for the repository as a
whole. -/
theorem c7_counterexample :
    OpenAI.toChatMessages [.text (str "system") (str "You are helpful.")] =
      .ok [{ role := str "system", content := .plain (str "You are helpful.") }] ∧
    Claude.toMessagesAndSystem [.text (str "system") (str "You are helpful.")] =
      .ok ([], str "You are helpful.") := by
  constructor <;> rfl

/-- C7 (amended): in the Claude backend — whose wire protocol carries a
separate system string — a system-role message is only accepted as a
plain text message (a system-role multimodal message is rejected), and
every system-role text message is extracted out of the converted message
list into the system-instruction string, so no converted Claude
conversation turn ever carries the system role.  The OpenAI backend
instead passes any non-blank role, `system` included, through as an
ordinary conversation turn. -/
theorem c7_system_extraction_amended :
    (∀ (msgs : List CoreMessage) (out : List Claude.CMessage) (sys : Str),
      Claude.toMessagesAndSystem msgs = .ok (out, sys) →
      ∀ cm ∈ out, cm.role ≠ str "system") ∧
    (∀ (role : Str) (parts : List ContentPartV),
      Claude.normalizeRole role = .ok (str "system") →
      Claude.contentMessage role parts =
        .error (str "content messages cannot use system role")) ∧
    (∀ (role content : Str),
      Claude.normalizeRole role = .ok (str "system") →
      Claude.textMessage role content = .ok (none, content)) ∧
    (∀ (role content : Str), trimSpace role ≠ [] →
      OpenAI.newTextChatMessage role content =
        .ok { role := trimSpace role, content := .plain content }) := by
  refine ⟨?_, ?_, ?_, ?_⟩
  · intro msgs out sys h
    exact claude_toMessagesAndSystemGo_no_system msgs [] [] out sys (by simp) h
  · intro role parts hn
    simp [Claude.contentMessage, hn]
  · intro role content hn
    simp [Claude.textMessage, hn]
  · intro role content hr
    simp [OpenAI.newTextChatMessage, hr]

/-- Witness for the amended C7: a concrete conversation with a system
instruction and a user turn. -/
theorem c7_system_extraction_amended_witness :
    (∀ cm ∈ ([{ role := str "user",
                content := [{ type := str "text", text := str "hi" }] }] :
        List Claude.CMessage), cm.role ≠ str "system") ∧
    Claude.textMessage (str "system") (str "be kind") = .ok (none, str "be kind") ∧
    OpenAI.newTextChatMessage (str "system") (str "be kind") =
      .ok { role := trimSpace (str "system"), content := .plain (str "be kind") } :=
  ⟨c7_system_extraction_amended.1
      [.text (str "system") (str "be kind"), .text (str "user") (str "hi")]
      [{ role := str "user", content := [{ type := str "text", text := str "hi" }] }]
      (str "be kind") rfl,
   c7_system_extraction_amended.2.2.1 (str "system") (str "be kind") rfl,
   c7_system_extraction_amended.2.2.2 (str "system") (str "be kind") (by decide)⟩

end GoAI
